import Mathlib

/-!
Verification of the xfiles import/reconciliation pipeline.

Strings are modelled as lists of characters (`Str`), JavaScript `Date`
values as explicit calendar records (`DateTime`, with `JsDate.invalid`
standing for the JS Invalid Date), and the Prisma-backed store as plain
lists of contacts and messages.  Each definition is a shallow embedding
of one function of the TypeScript source, named after it.
-/

namespace XFiles

abbrev Str := List Char

/-- JavaScript whitespace class `\s` restricted to the ASCII whitespace
characters; all inputs handled by this codebase are ASCII. -/
def isWS (c : Char) : Bool :=
  c = ' ' || c = '\t' || c = '\n' || c = '\r' || c = '\x0b' || c = '\x0c'

/-- Regex class `\d`. -/
def isDigitCh (c : Char) : Bool :=
  48 ≤ c.toNat && c.toNat ≤ 57

/-- Boolean prefix test, the semantics of `String.prototype.startsWith`. -/
def startsWithL : Str → Str → Bool
  | [], _ => true
  | _ :: _, [] => false
  | p :: ps, c :: cs => p = c && startsWithL ps cs

/-- JavaScript `String.prototype.trim` (both ends, whitespace). -/
def trimStr (s : Str) : Str :=
  ((s.dropWhile isWS).reverse.dropWhile isWS).reverse

/-- Split a string on every occurrence of a separator character, the
semantics of `String.prototype.split` with a one-character separator. -/
def splitOnChar (sep : Char) (s : Str) : List Str :=
  s.foldr (fun c acc =>
    match acc with
    | [] => if c = sep then [[], []] else [[c]]
    | a :: rest => if c = sep then [] :: a :: rest else (c :: a) :: rest) [[]]

/-- JavaScript `parseInt` on radix 10: skip leading whitespace, optional
sign, then a maximal run of digits; `none` models `NaN`. -/
def jsParseInt (s : Str) : Option Int :=
  let t := s.dropWhile isWS
  let (neg, t) : Bool × Str :=
    match t with
    | '-' :: r => (true, r)
    | '+' :: r => (false, r)
    | r => (false, r)
  let ds := t.takeWhile isDigitCh
  if ds = [] then none
  else
    let n : Nat := ds.foldl (fun a c => a * 10 + (c.toNat - 48)) 0
    some (if neg then -(n : Int) else (n : Int))

/- ## Phone Normalizer (src/frontend/src/utils/phoneUtils.ts) -/

/-- Character class `[\s\-\(\)]` removed by `normalizePhoneNumber`. -/
def isPhoneFormatCh (c : Char) : Bool :=
  isWS c || c = '-' || c = '(' || c = ')'

/-- The `phoneNumber.replace(/[\s\-\(\)]/g, '')` step of
`normalizePhoneNumber`. -/
def stripFormatting (s : Str) : Str :=
  s.filter (fun c => !(isPhoneFormatCh c))

/-- Regex `^7\d{6}$` of `normalizePhoneNumber`. -/
def isLocalSeven (s : Str) : Bool :=
  match s with
  | '7' :: rest => rest.length = 6 && rest.all isDigitCh
  | _ => false

/-- Regex `^\d{6}$` of `normalizePhoneNumber`. -/
def isLocalSix (s : Str) : Bool :=
  s.length = 6 && s.all isDigitCh

def plus960 : Str := ['+', '9', '6', '0']

def bare960 : Str := ['9', '6', '0']

def plus9607 : Str := ['+', '9', '6', '0', '7']

/-- Shallow embedding of `normalizePhoneNumber` (phoneUtils.ts, lines
10-38).  The initial `if (!phoneNumber)` guard is the JS falsiness test,
which for strings is emptiness. -/
def normalizePhoneNumber (phoneNumber : Str) : Str :=
  if phoneNumber = [] then phoneNumber
  else
    let cleaned := stripFormatting phoneNumber
    if startsWithL plus960 cleaned then cleaned
    else if startsWithL bare960 cleaned then '+' :: cleaned
    else if isLocalSeven cleaned then plus960 ++ cleaned
    else if isLocalSix cleaned then plus9607 ++ cleaned
    else phoneNumber

/- ## JavaScript dates

A `Date` built by `new Date(year, monthIndex, day, hours, minutes,
seconds)` is modelled by its calendar components, with the stored month
1-based (`monthIndex + 1`), exactly what the builder produces for
in-range arguments.  Out-of-range rollover is not modelled (no input in
this development produces it); a `NaN` argument gives an Invalid Date. -/

structure DateTime where
  year : Int
  month : Int
  day : Int
  hour : Int
  minute : Int
  second : Int
deriving DecidableEq, Repr

inductive JsDate where
  | invalid
  | valid (dt : DateTime)
deriving DecidableEq, Repr

/-- Build a `Date` from `parseInt` results (`none` models `NaN`). -/
def jsDateMk (y mIdx d h mi s : Option Int) : JsDate :=
  match y, mIdx, d, h, mi, s with
  | some y, some mIdx, some d, some h, some mi, some s =>
      .valid ⟨y, mIdx + 1, d, h, mi, s⟩
  | _, _, _, _, _, _ => .invalid

/- ## Regular-expression matching

The parsers of this codebase are written with JavaScript regexes whose
repetitions all range over single character classes.  They are embedded
with explicit backtracking: a repetition contributes the list of its
candidate splits (longest first for greedy, shortest first for lazy) and
a match is the first success of the chained candidates, which is exactly
the JS backtracking order (latest choice point retried first). -/

/-- Candidate splits (consumed, rest) of a greedy repetition of the
class `p`, longest first. -/
def greedySplits (p : Char → Bool) (s : Str) : List (Str × Str) :=
  let run := s.takeWhile p
  let rest := s.drop run.length
  ((List.range (run.length + 1)).reverse).map (fun i => (run.take i, run.drop i ++ rest))

/-- Candidate splits of `p+` (greedy, at least one character). -/
def greedySplits1 (p : Char → Bool) (s : Str) : List (Str × Str) :=
  (greedySplits p s).filter (fun pr => pr.1 ≠ [])

/-- Candidate splits of a lazy repetition, shortest first. -/
def lazySplits (p : Char → Bool) (s : Str) : List (Str × Str) :=
  (greedySplits p s).reverse

/-- Match a literal. -/
def litM (pat s : Str) : Option Str :=
  if startsWithL pat s then some (s.drop pat.length) else none

/-- Match exactly `n` characters of class `p` (a `{n}` repetition). -/
def takeExact (p : Char → Bool) (n : Nat) (s : Str) : Option (Str × Str) :=
  let c := s.take n
  if c.length = n && c.all p then some (c, s.drop n) else none

/-- Candidates of an alternation of literals, in alternation order. -/
def altLit (pats : List Str) (s : Str) : List (Str × Str) :=
  pats.filterMap (fun p => (litM p s).map (fun r => (p, r)))

/-- Candidates of an optional group: the group's own candidates first,
then the empty match. -/
def optCands (cands : List (Str × Str)) (s : Str) : List (Option Str × Str) :=
  cands.map (fun pr => (some pr.1, pr.2)) ++ [(none, s)]

/-- The date token `(\d{2}\/\d{2}\/\d{4})`: returns (captured text, rest). -/
def matchDate (s : Str) : Option (Str × Str) := do
  let (d1, s1) ← takeExact isDigitCh 2 s
  let s2 ← litM ['/'] s1
  let (d2, s3) ← takeExact isDigitCh 2 s2
  let s4 ← litM ['/'] s3
  let (d3, s5) ← takeExact isDigitCh 4 s4
  pure (d1 ++ '/' :: d2 ++ '/' :: d3, s5)

def tokSMS : Str := "SMS".toList

def tokInstant : Str := "Instant".toList

def tokFrom : Str := "From".toList

def tokTo : Str := "To".toList

/- ## SMSInstantLogParser (src/backend/src/scripts/parse-sms-instant-log.ts) -/

/-- Pattern `^\s*(\d+)\s+(SMS|Instant)\s+(From|To)?\s+(\d{2}\/\d{2}\/\d{4})`
of `isMessageStart`, returning the captures (id digits, type token,
direction token, date text) and the rest of the line after the date. -/
def matchMsgStart (s : Str) : Option (Str × Str × Option Str × Str × Str) :=
  (greedySplits isWS s).findSome? fun ws0 =>
  (greedySplits1 isDigitCh ws0.2).findSome? fun ds =>
  (greedySplits1 isWS ds.2).findSome? fun ws1 =>
  (altLit [tokSMS, tokInstant] ws1.2).findSome? fun ty =>
  (greedySplits1 isWS ty.2).findSome? fun ws2 =>
  (optCands (altLit [tokFrom, tokTo] ws2.2) ws2.2).findSome? fun dir =>
  (greedySplits1 isWS dir.2).findSome? fun ws3 =>
  (matchDate ws3.2).map fun date => (ds.1, ty.1, dir.1, date.1, date.2)

/-- `isMessageStart` (parse-sms-instant-log.ts, lines 119-124). -/
def isMessageStart (line : Str) : Bool :=
  (matchMsgStart line).isSome

/-- The start-line pattern of `parseMessageRecord`, which extends
`isMessageStart`'s pattern with `\s+(.*)$` (`$` only matches the end of
input and `.` excludes newlines in JS). -/
def matchMsgStartFull (s : Str) : Option (Str × Str × Option Str × Str × Str) :=
  (greedySplits isWS s).findSome? fun ws0 =>
  (greedySplits1 isDigitCh ws0.2).findSome? fun ds =>
  (greedySplits1 isWS ds.2).findSome? fun ws1 =>
  (altLit [tokSMS, tokInstant] ws1.2).findSome? fun ty =>
  (greedySplits1 isWS ty.2).findSome? fun ws2 =>
  (optCands (altLit [tokFrom, tokTo] ws2.2) ws2.2).findSome? fun dir =>
  (greedySplits1 isWS dir.2).findSome? fun ws3 =>
  (matchDate ws3.2).bind fun date =>
  (greedySplits1 isWS date.2).findSome? fun ws4 =>
  if ws4.2.any (fun c => c = '\n') then none
  else some (ds.1, ty.1, dir.1, date.1, ws4.2)

/-- Result of searching a line for a `From:`/`To:` marker. -/
structure MarkerMatch where
  pre : Str
  phone : Str
  name : Option Str
  post : Str
deriving DecidableEq, Repr

/-- The pattern `From:\s*([^\s]+)(?:\s+(.*))?` (resp. `To:`) anchored at
the current position.  The greedy `\s*` cannot profitably backtrack
before `[^\s]+`, and the optional tail always succeeds when at least one
whitespace character follows the phone token, with `.*` matching up to
the next newline. -/
def anchoredMarker (marker : Str) (s : Str) : Option (Str × Option Str × Str) :=
  match litM marker s with
  | none => none
  | some s1 =>
    let s2 := s1.dropWhile isWS
    let ph := s2.takeWhile (fun c => !(isWS c))
    if ph = [] then none
    else
      let s3 := s2.drop ph.length
      let wsRun := s3.takeWhile isWS
      if wsRun = [] then some (ph, none, s3)
      else
        let s4 := s3.drop wsRun.length
        let nm := s4.takeWhile (fun c => c ≠ '\n')
        some (ph, some nm, s4.drop nm.length)

/-- Unanchored search for the marker pattern, leftmost match first,
also returning the text before and after the whole match (the span that
`String.prototype.replace` removes). -/
def searchMarker (marker : Str) (s : Str) : Option MarkerMatch :=
  match anchoredMarker marker s with
  | some r => some ⟨[], r.1, r.2.1, r.2.2⟩
  | none =>
    match s with
    | [] => none
    | c :: t => (searchMarker marker t).map
        (fun m => ⟨c :: m.pre, m.phone, m.name, m.post⟩)

/-- Result of searching a line for the `HH:MM:SS(UTC+0)` time token. -/
structure TimeMatch where
  pre : Str
  timeStr : Str
  post : Str
deriving DecidableEq, Repr

/-- The pattern `(\d{2}:\d{2}:\d{2})\(UTC\+0\)` anchored at the current
position: (captured time, rest). -/
def anchoredTime (s : Str) : Option (Str × Str) := do
  let (h1, s1) ← takeExact isDigitCh 2 s
  let s2 ← litM [':'] s1
  let (m1, s3) ← takeExact isDigitCh 2 s2
  let s4 ← litM [':'] s3
  let (sec, s5) ← takeExact isDigitCh 2 s4
  let s6 ← litM "(UTC+0)".toList s5
  pure (h1 ++ ':' :: m1 ++ ':' :: sec, s6)

/-- Unanchored search for the time token, leftmost first. -/
def searchTime (s : Str) : Option TimeMatch :=
  match anchoredTime s with
  | some r => some ⟨[], r.1, r.2⟩
  | none =>
    match s with
    | [] => none
    | c :: t => (searchTime t).map (fun m => ⟨c :: m.pre, m.timeStr, m.post⟩)

/-- JS string truthiness of a possibly-undefined string. -/
def jsTruthyStr (o : Option Str) : Bool :=
  match o with
  | some s => s ≠ []
  | none => false

/-- The JS expression `a || b` on possibly-undefined strings. -/
def jsOrStr (a b : Option Str) : Option Str :=
  match a with
  | some s => if s = [] then b else some s
  | none => b

/-- The JS expression `s || dflt` on strings. -/
def jsOrDefault (s dflt : Str) : Str :=
  if s = [] then dflt else s

inductive Direction where
  | FROM
  | TO
  | UNKNOWN
deriving DecidableEq, Repr

inductive SIType where
  | SMS
  | INSTANT
deriving DecidableEq, Repr

/-- The `ParsedMessage` interface of parse-sms-instant-log.ts. -/
structure SIMsg where
  id : Option Int
  type : SIType
  direction : Direction
  timestamp : JsDate
  phoneNumber : Option Str
  name : Option Str
  content : Str
  rawLines : List Str
deriving DecidableEq, Repr

/-- `extractPhoneAndName` (parse-sms-instant-log.ts): returns
(phoneNumber, name, contentStart).  `fromMatch` is consulted before
`toMatch`; the `replace` call removes the same first-match span the
search found, and both the name and the leftover content are trimmed. -/
def extractPhoneAndName (text : Str) : Option Str × Option Str × Str :=
  if text = [] then (none, none, [])
  else
    match searchMarker "From:".toList text with
    | some m => (some m.phone, m.name.map trimStr, trimStr (m.pre ++ m.post))
    | none =>
      match searchMarker "To:".toList text with
      | some m => (some m.phone, m.name.map trimStr, trimStr (m.pre ++ m.post))
      | none => (none, none, trimStr text)

/-- `determineDirection` (parse-sms-instant-log.ts). -/
def determineDirection (direction : Option Str) (phoneNumber : Option Str) :
    Direction :=
  if direction = some tokFrom then .FROM
  else if direction = some tokTo then .TO
  else if jsTruthyStr phoneNumber then .FROM
  else .UNKNOWN

structure SendRecv where
  senderPhone : Option Str
  receiverPhone : Option Str
  senderName : Option Str
  receiverName : Option Str
deriving DecidableEq, Repr

/-- `determineSenderReceiver` (parse-sms-instant-log.ts); an unknown
direction is treated as sender. -/
def determineSenderReceiver (d : Direction) (phoneNumber name : Option Str) :
    SendRecv :=
  match d with
  | .FROM => ⟨phoneNumber, none, name, none⟩
  | .TO => ⟨none, phoneNumber, none, name⟩
  | .UNKNOWN => ⟨phoneNumber, none, name, none⟩

/-- `parseTimestamp` (parse-sms-instant-log.ts, lines 274-284):
day/month/year plus an optional `HH:MM:SS` time of day. -/
def parseTimestamp (dateStr timeStr : Str) : JsDate :=
  let parts := splitOnChar '/' dateStr
  let day := parts.getD 0 []
  let month := parts.getD 1 []
  let year := parts.getD 2 []
  if timeStr ≠ [] then
    let tp := splitOnChar ':' timeStr
    jsDateMk (jsParseInt year) ((jsParseInt month).map (fun m => m - 1))
      (jsParseInt day) (jsParseInt (tp.getD 0 [])) (jsParseInt (tp.getD 1 []))
      (jsParseInt (tp.getD 2 []))
  else
    jsDateMk (jsParseInt year) ((jsParseInt month).map (fun m => m - 1))
      (jsParseInt day) (some 0) (some 0) (some 0)

/-- The `line.replace(/\d{2}:\d{2}:\d{2}\(UTC\+0\)/, '')` step: remove
the first time-token occurrence, if any. -/
def removeTimeTok (l : Str) : Str :=
  match searchTime l with
  | some tm => tm.pre ++ tm.post
  | none => l

/-- The content-collection loop of `parseMessageRecord` over the
continuation lines: the first continuation line contributes its text
with the time token removed, later lines contribute their trimmed text;
empty contributions are dropped. -/
def collectContent (contLines : List Str) : List Str :=
  match contLines with
  | [] => []
  | first :: rest =>
    let firstContent := trimStr (removeTimeTok first)
    (if firstContent ≠ [] then [firstContent] else []) ++
      rest.filterMap (fun l =>
        let t := trimStr l
        if t = [] then none else some t)

/-- Space-joined content, the `.join(' ')`. -/
def joinSp (xs : List Str) : Str :=
  List.intercalate [' '] xs

/-- `parseMessageRecord` (parse-sms-instant-log.ts, lines 126-208).  The
time kept is the last time token found on any continuation line; the
guard rejecting types other than SMS/Instant is vacuous because the
start pattern only matches those two tokens.  The `recordId` parameter
is accepted and unused, as in the source (the id comes from the line). -/
def parseMessageRecord (lines : List Str) (_recordId : Nat) : Option SIMsg :=
  match lines with
  | [] => none
  | startLine :: contLines =>
    match matchMsgStartFull startLine with
    | none => none
    | some (idDs, ty, dirTok, dateStr, rest) =>
      let pn := extractPhoneAndName rest
      let timeStr := contLines.foldl
        (fun acc l => match searchTime l with
          | some tm => tm.timeStr
          | none => acc) []
      let contentLines := collectContent contLines
      let allContent := joinSp (([pn.2.2] ++ contentLines).filter (fun c => c ≠ []))
      let messageDirection := determineDirection dirTok pn.1
      let sr := determineSenderReceiver messageDirection pn.1 pn.2.1
      some {
        id := jsParseInt idDs
        type := if ty = tokSMS then .SMS else .INSTANT
        direction := messageDirection
        timestamp := parseTimestamp dateStr timeStr
        phoneNumber := jsOrStr sr.senderPhone sr.receiverPhone
        name := jsOrStr sr.senderName sr.receiverName
        content := jsOrDefault allContent "No content".toList
        rawLines := lines }

/- ## Persistent store (the Prisma contact/message tables) -/

inductive MessageType where
  | SMS
  | CALL
  | INSTANT
  | CALENDAR
deriving DecidableEq, Repr

inductive ContactType where
  | INDIVIDUAL
  | GROUP
deriving DecidableEq, Repr

structure Contact where
  id : Nat
  phoneNumber : Str
  name : Option Str
  ctype : ContactType
deriving DecidableEq, Repr

structure DbMessage where
  id : Nat
  messageType : MessageType
  direction : Direction
  senderId : Option Nat
  receiverId : Option Nat
  timestamp : JsDate
  content : Option Str
  attachment : Option Str
  location : Option Str
  rawLine : Option Str
deriving DecidableEq, Repr

/-- The database: the two tables plus their autoincrement counters. -/
structure Store where
  contacts : List Contact
  messages : List DbMessage
  nextContactId : Nat
  nextMessageId : Nat
deriving DecidableEq, Repr

/-- The `ImportStats` interface of advanced-import.ts; note that it has
no duplicate-skip field. -/
structure Stats where
  totalLines : Nat
  processedRecords : Nat
  createdContacts : Nat
  createdMessages : Nat
  errors : Nat
  skippedLines : Nat
deriving DecidableEq, Repr

/-- The mutable fields of `AdvancedLogImporter` together with the
database it writes to. -/
structure ImporterState where
  store : Store
  contactCache : List (Str × Nat)
  lastContactId : Option Nat
  stats : Stats
deriving DecidableEq, Repr

/-- `contactCache.get` / `contactCache.has`. -/
def lookupCache (cache : List (Str × Nat)) (p : Str) : Option Nat :=
  (cache.find? (fun e => e.1 = p)).map (fun e => e.2)

/-- `contactCache.set`: replace the entry for the key if present,
append otherwise. -/
def cacheSet : List (Str × Nat) → Str → Nat → List (Str × Nat)
  | [], p, cid => [(p, cid)]
  | e :: t, p, cid => if e.1 = p then (p, cid) :: t else e :: cacheSet t p cid

/-- The JS expression `x || null` on a possibly-undefined string: the
empty string also becomes null. -/
def jsStrOrNone (o : Option Str) : Option Str :=
  match o with
  | some s => if s = [] then none else some s
  | none => none

/-- JS truthiness of a possibly-null numeric id (`this.lastContactId`
in a condition): null and 0 are falsy. -/
def jsTruthyId (o : Option Nat) : Bool :=
  o.getD 0 ≠ 0

/-- `getOrCreateContact` (advanced-import.ts, lines 304-331): the cache
is consulted first and a hit returns immediately; otherwise the store is
searched by exact phone number and a missing contact is created (name
`name || null`, type INDIVIDUAL, `createdContacts` incremented).  The
cache entry and `lastContactId` are written only on the cache-miss
paths, after the early return. -/
def getOrCreateContact (phoneNumber : Str) (name : Option Str)
    (s : ImporterState) : Nat × ImporterState :=
  match lookupCache s.contactCache phoneNumber with
  | some cid => (cid, s)
  | none =>
    match s.store.contacts.find? (fun c => c.phoneNumber = phoneNumber) with
    | some c =>
      (c.id, { s with
        contactCache := cacheSet s.contactCache phoneNumber c.id,
        lastContactId := some c.id })
    | none =>
      let cid := s.store.nextContactId
      let c : Contact := ⟨cid, phoneNumber, jsStrOrNone name, .INDIVIDUAL⟩
      (cid, { s with
        store := { s.store with
          contacts := s.store.contacts ++ [c],
          nextContactId := cid + 1 },
        stats := { s.stats with
          createdContacts := s.stats.createdContacts + 1 },
        contactCache := cacheSet s.contactCache phoneNumber cid,
        lastContactId := some cid })

/-- The `ParsedMessage` interface of advanced-import.ts. -/
structure AdvParsed where
  messageType : MessageType
  direction : Direction
  senderNumber : Option Str
  senderName : Option Str
  receiverNumber : Option Str
  receiverName : Option Str
  content : Option Str
  timestamp : JsDate
  attachment : Option Str
  location : Option Str
  rawLine : Option Str
deriving DecidableEq, Repr

/-- The duplicate key `(messageType, direction, timestamp, content)` of
`insertMessage`'s `findFirst`.  A `content` the parser left undefined is
dropped from the Prisma filter rather than compared against null. -/
def matchesDupKey (parsed : AdvParsed) (m : DbMessage) : Bool :=
  m.messageType = parsed.messageType && m.direction = parsed.direction &&
  m.timestamp = parsed.timestamp &&
  (match parsed.content with
   | some c => m.content = some c
   | none => true)

def findDuplicate (s : ImporterState) (parsed : AdvParsed) : Option DbMessage :=
  s.store.messages.find? (matchesDupKey parsed)

/-- The "Handle sender" block of `insertMessage`. -/
def resolveSender (parsed : AdvParsed) (s : ImporterState) :
    Option Nat × ImporterState :=
  if jsTruthyStr parsed.senderNumber then
    let r := getOrCreateContact (parsed.senderNumber.getD []) parsed.senderName s
    (some r.1, r.2)
  else (none, s)

/-- The "Handle receiver" block of `insertMessage`, including the
last-known-contact fallback for TO messages without a receiver number. -/
def resolveReceiver (parsed : AdvParsed) (s : ImporterState) :
    Option Nat × ImporterState :=
  if jsTruthyStr parsed.receiverNumber then
    let r := getOrCreateContact (parsed.receiverNumber.getD []) parsed.receiverName s
    (some r.1, r.2)
  else if parsed.direction = .TO && jsTruthyId s.lastContactId then
    (s.lastContactId, s)
  else (none, s)

/-- The message row built by `insertMessage`'s `prisma.message.create`
from the parsed record and the resolved sender/receiver. -/
def insertedMsg (parsed : AdvParsed) (senderId receiverId : Option Nat)
    (s2 : ImporterState) : DbMessage := {
  id := s2.store.nextMessageId
  messageType := parsed.messageType
  direction := parsed.direction
  senderId := senderId
  receiverId := receiverId
  timestamp := parsed.timestamp
  content := parsed.content
  attachment := parsed.attachment
  location := parsed.location
  rawLine := jsStrOrNone parsed.rawLine }

/-- `insertMessage` (advanced-import.ts, lines 333-384): duplicate check
first (early return), then sender and receiver resolution, then the
message row is created and `createdMessages` incremented. -/
def insertMessage (parsed : AdvParsed) (skipDuplicates : Bool)
    (s : ImporterState) : ImporterState :=
  if skipDuplicates && (findDuplicate s parsed).isSome then s
  else
    let rs := resolveSender parsed s
    let rr := resolveReceiver parsed rs.2
    let s2 := rr.2
    let msg := insertedMsg parsed rs.1 rr.1 s2
    { s2 with
      store := { s2.store with
        messages := s2.store.messages ++ [msg],
        nextMessageId := s2.store.nextMessageId + 1 },
      stats := { s2.stats with
        createdMessages := s2.stats.createdMessages + 1 } }

/- Sample data used by the concrete witnesses below. -/

def emptyStats : Stats := ⟨0, 0, 0, 0, 0, 0⟩

def sampleState : ImporterState := {
  store := { contacts := [], messages := [], nextContactId := 1, nextMessageId := 1 }
  contactCache := []
  lastContactId := some 7
  stats := emptyStats }

def sampleParsed : AdvParsed := {
  messageType := .SMS
  direction := .TO
  senderNumber := none
  senderName := none
  receiverNumber := none
  receiverName := none
  content := some "hi".toList
  timestamp := .valid ⟨2014, 6, 5, 0, 0, 0⟩
  attachment := none
  location := none
  rawLine := some "raw".toList }

def sampleParsedB : AdvParsed := { sampleParsed with content := some "first".toList }

def sampleParsedC : AdvParsed := { sampleParsed with content := some "second".toList }

/-- State whose session cache already holds a phone number, while
`lastContactId` points at a different contact. -/
def cacheHitState : ImporterState := {
  store := { contacts := [], messages := [], nextContactId := 1, nextMessageId := 1 }
  contactCache := [("+9607777472".toList, 5)]
  lastContactId := some 9
  stats := emptyStats }

/- ## AdvancedLogImporter record parsers (advanced-import.ts) -/

/-- Unanchored regex search: try the pattern at every position, leftmost
match first. -/
def searchSome {α : Type} (m : Str → Option α) : Str → Option α
  | [] => m []
  | c :: t =>
    match m (c :: t) with
    | some r => some r
    | none => searchSome m t

/-- `parseDate` (advanced-import.ts): day/month/year at midnight. -/
def parseDateAdv (dateStr : Str) : JsDate :=
  let parts := splitOnChar '/' dateStr
  jsDateMk (jsParseInt (parts.getD 2 []))
    ((jsParseInt (parts.getD 1 [])).map (fun m => m - 1))
    (jsParseInt (parts.getD 0 [])) (some 0) (some 0) (some 0)

/-- `parseDateTime` (advanced-import.ts): 12-hour time with AM/PM on a
day/month/year date; NaN propagates exactly as in JS (`NaN !== 12` holds,
so the PM branch adds 12 to NaN, which stays NaN). -/
def parseDateTimeAdv (dateStr timeStr : Str) : JsDate :=
  let parts := splitOnChar '/' dateStr
  let tparts := splitOnChar ' ' timeStr
  let time := tparts.getD 0 []
  let period := tparts.get? 1
  let hm := splitOnChar ':' time
  let hour0 := jsParseInt (hm.getD 0 [])
  let minutes := jsParseInt (hm.getD 1 [])
  let hour1 :=
    if period = some "PM".toList ∧ hour0 ≠ some 12 then hour0.map (fun h => h + 12)
    else hour0
  let hour2 :=
    if period = some "AM".toList ∧ hour1 = some 12 then some 0
    else hour1
  jsDateMk (jsParseInt (parts.getD 2 []))
    ((jsParseInt (parts.getD 1 [])).map (fun m => m - 1))
    (jsParseInt (parts.getD 0 [])) hour2 minutes (some 0)

/-- The shared core `LIT\s+(From|To)\s+(\d{2}\/\d{2}\/\d{4})` of the
SMS / Call Log / Instant patterns, anchored at the current position and
continuation-passing so that later failures backtrack into it. -/
def matchTypeCoreK {α : Type} (lit : Str) (s : Str)
    (k : Str × Str × Str → Option α) : Option α :=
  (litM lit s).bind fun s0 =>
  (greedySplits1 isWS s0).findSome? fun ws1 =>
  (altLit [tokFrom, tokTo] ws1.2).findSome? fun dir =>
  (greedySplits1 isWS dir.2).findSome? fun ws2 =>
  (matchDate ws2.2).bind fun date => k (dir.1, date.1, date.2)

/-- Captures of an SMS / Call Log / Instant pattern, positions as in the
JS match array. -/
structure AdvGroups where
  dir : Str
  dateStr : Str
  number : Option Str
  name : Option Str
  content : Option Str
deriving DecidableEq, Repr

/-- Pattern 1 of `parseSMS` / `parseInstant` (with `/s`):
`LIT\s+(From|To)\s+(date)\s+(?:From|To):\s*([^\s]+)?\s*(.*?)\n\s*(.*)`. -/
def smsPat1 (lit : Str) (s : Str) : Option AdvGroups :=
  matchTypeCoreK lit s fun core =>
  (greedySplits1 isWS core.2.2).findSome? fun ws3 =>
  (altLit ["From:".toList, "To:".toList] ws3.2).findSome? fun mk =>
  (greedySplits isWS mk.2).findSome? fun ws4 =>
  (optCands (greedySplits1 (fun c => !(isWS c)) ws4.2) ws4.2).findSome? fun num =>
  (greedySplits isWS num.2).findSome? fun ws5 =>
  (lazySplits (fun _ => true) ws5.2).findSome? fun nme =>
  (litM ['\n'] nme.2).bind fun afterNL =>
  some ⟨core.1, core.2.1, num.1, some nme.1, some (afterNL.dropWhile isWS)⟩

/-- Pattern 2: `LIT\s+(From|To)\s+(date)\s+(?:From|To):\s*([^\s]+)`. -/
def smsPat2 (lit : Str) (s : Str) : Option AdvGroups :=
  matchTypeCoreK lit s fun core =>
  (greedySplits1 isWS core.2.2).findSome? fun ws3 =>
  (altLit ["From:".toList, "To:".toList] ws3.2).findSome? fun mk =>
  (greedySplits isWS mk.2).findSome? fun ws4 =>
  (greedySplits1 (fun c => !(isWS c)) ws4.2).findSome? fun num =>
  some ⟨core.1, core.2.1, some num.1, none, none⟩

/-- Pattern 3: `LIT\s+(From|To)\s+(date)`. -/
def smsPat3 (lit : Str) (s : Str) : Option AdvGroups :=
  matchTypeCoreK lit s fun core =>
  some ⟨core.1, core.2.1, none, none, none⟩

/-- Pattern 1 of `parseCall` (no `/s`, so the trailing `(.*)` stops at a
newline): `Call Log\s+(From|To)\s+(date)\s+(?:From|To):\s*([^\s]+)?\s*(.*)`. -/
def callPat1 (s : Str) : Option AdvGroups :=
  matchTypeCoreK "Call Log".toList s fun core =>
  (greedySplits1 isWS core.2.2).findSome? fun ws3 =>
  (altLit ["From:".toList, "To:".toList] ws3.2).findSome? fun mk =>
  (greedySplits isWS mk.2).findSome? fun ws4 =>
  (optCands (greedySplits1 (fun c => !(isWS c)) ws4.2) ws4.2).findSome? fun num =>
  some ⟨core.1, core.2.1, num.1,
    some ((num.2.dropWhile isWS).takeWhile (fun c => c ≠ '\n')), none⟩

/-- `content?.trim() || DFLT`. -/
def jsContentDefault (c : Option Str) (dflt : Str) : Str :=
  match c with
  | some s => jsOrDefault (trimStr s) dflt
  | none => dflt

/-- Build the `ParsedMessage` the SMS/Instant/Call parsers return from
the match groups. -/
def advParsedOfGroups (ty : MessageType) (g : AdvGroups) (content : Str) :
    AdvParsed := {
  messageType := ty
  direction := if g.dir = tokFrom then .FROM else .TO
  senderNumber := if g.dir = tokFrom then g.number else none
  senderName := if g.dir = tokFrom then g.name.map trimStr else none
  receiverNumber := if g.dir = tokTo then g.number else none
  receiverName := if g.dir = tokTo then g.name.map trimStr else none
  content := some content
  timestamp := parseDateAdv g.dateStr
  attachment := none
  location := none
  rawLine := none }

/-- `parseSMS` (advanced-import.ts, lines 157-188): the three patterns
are tried in order, each searched unanchored. -/
def parseSMS (text : Str) : Option AdvParsed :=
  let g :=
    match searchSome (smsPat1 tokSMS) text with
    | some g => some g
    | none =>
      match searchSome (smsPat2 tokSMS) text with
      | some g => some g
      | none => searchSome (smsPat3 tokSMS) text
  g.map fun g =>
    advParsedOfGroups .SMS g (jsContentDefault g.content "SMS message".toList)

/-- `parseCall` (advanced-import.ts): two patterns, fixed content
`"Call"`. -/
def parseCall (text : Str) : Option AdvParsed :=
  let g :=
    match searchSome callPat1 text with
    | some g => some g
    | none => searchSome (smsPat3 "Call Log".toList) text
  g.map fun g => advParsedOfGroups .CALL g "Call".toList

/-- `parseInstant` (advanced-import.ts): same shape as `parseSMS` with
the `Instant` token and default content. -/
def parseInstant (text : Str) : Option AdvParsed :=
  let g :=
    match searchSome (smsPat1 tokInstant) text with
    | some g => some g
    | none =>
      match searchSome (smsPat2 tokInstant) text with
      | some g => some g
      | none => searchSome (smsPat3 tokInstant) text
  g.map fun g =>
    advParsedOfGroups .INSTANT g (jsContentDefault g.content "Instant message".toList)

/-- Captures of a Calendar pattern, positions as in the JS match array
(`timeStr` receives group 2 even for the second pattern, where group 2
is the free text after the date). -/
structure CalGroups where
  dateStr : Str
  timeStr : Option Str
  content : Option Str
deriving DecidableEq, Repr

/-- Pattern 1 of `parseCalendar`:
`Calendar\s+(date)\s+(\d{1,2}:\d{2}\s+[AP]M)\s*-\s*(.*)`. -/
def calPat1 (s : Str) : Option CalGroups :=
  (litM "Calendar".toList s).bind fun s0 =>
  (greedySplits1 isWS s0).findSome? fun ws1 =>
  (matchDate ws1.2).bind fun date =>
  (greedySplits1 isWS date.2).findSome? fun ws2 =>
  (((match takeExact isDigitCh 2 ws2.2 with
    | some r => [r]
    | none => []) ++
   (match takeExact isDigitCh 1 ws2.2 with
    | some r => [r]
    | none => []) : List (Str × Str))).findSome? fun hh =>
  (litM [':'] hh.2).bind fun s3 =>
  (takeExact isDigitCh 2 s3).bind fun mm =>
  (greedySplits1 isWS mm.2).findSome? fun ws3 =>
  (altLit [['A'], ['P']] ws3.2).findSome? fun ap =>
  (litM ['M'] ap.2).bind fun s4 =>
  (greedySplits isWS s4).findSome? fun ws4 =>
  (litM ['-'] ws4.2).bind fun s5 =>
  some ⟨date.1,
    some (hh.1 ++ ':' :: mm.1 ++ ws3.1 ++ ap.1 ++ ['M']),
    some ((s5.dropWhile isWS).takeWhile (fun c => c ≠ '\n'))⟩

/-- Pattern 2 of `parseCalendar`: `Calendar\s+(date)\s+(.*)`. -/
def calPat2 (s : Str) : Option CalGroups :=
  (litM "Calendar".toList s).bind fun s0 =>
  (greedySplits1 isWS s0).findSome? fun ws1 =>
  (matchDate ws1.2).bind fun date =>
  (greedySplits1 isWS date.2).findSome? fun ws2 =>
  some ⟨date.1, some (ws2.2.takeWhile (fun c => c ≠ '\n')), none⟩

/-- `parseCalendar` (advanced-import.ts): calendar events become
INSTANT messages with UNKNOWN direction; `timestamp` uses the 12-hour
time when the group is truthy. -/
def parseCalendar (text : Str) : Option AdvParsed :=
  let g :=
    match searchSome calPat1 text with
    | some g => some g
    | none => searchSome calPat2 text
  g.map fun g => {
    messageType := .INSTANT
    direction := .UNKNOWN
    senderNumber := none
    senderName := none
    receiverNumber := none
    receiverName := none
    content := g.content.map trimStr
    timestamp :=
      if jsTruthyStr g.timeStr then parseDateTimeAdv g.dateStr (g.timeStr.getD [])
      else parseDateAdv g.dateStr
    attachment := none
    location := none
    rawLine := none }

/-- `parseRecord` (advanced-import.ts): dispatch on the detected record
type. -/
def parseRecordAdv (text : Str) (recordType : Str) : Option AdvParsed :=
  if recordType = "SMS".toList then parseSMS text
  else if recordType = "CALL".toList then parseCall text
  else if recordType = "CALENDAR".toList then parseCalendar text
  else if recordType = "INSTANT".toList then parseInstant text
  else none

def joinNL (lines : List Str) : Str :=
  List.intercalate ['\n'] lines

/-- `processRecord` (advanced-import.ts, lines 123-140): a successful
parse gets the raw text attached and counts in `processedRecords`; a
parser returning null leaves the statistics untouched.  The catch block
incrementing `errors` only fires on a thrown exception, and the parsers
are total, so that path is unreachable. -/
def processRecord (lines : List Str) (recordType : Str) (stats : Stats) :
    Option AdvParsed × Stats :=
  let fullText := joinNL lines
  match parseRecordAdv fullText recordType with
  | some parsed =>
    (some { parsed with rawLine := some fullText },
     { stats with processedRecords := stats.processedRecords + 1 })
  | none => (none, stats)

/-- `detectRecordType` (advanced-import.ts). -/
def detectRecordTypeAdv (line : Str) : Str :=
  if startsWithL tokSMS line then "SMS".toList
  else if startsWithL "Call Log".toList line then "CALL".toList
  else if startsWithL "Calendar".toList line then "CALENDAR".toList
  else if startsWithL tokInstant line then "INSTANT".toList
  else "UNKNOWN".toList

/- ## Record Reassembler (advanced-import.ts, importLogFile lines 63-113) -/

/-- The record-start test of `importLogFile`: a plain `startsWith` on
the four type tokens, with no leading id and no date required. -/
def isRecordStartAdv (line : Str) : Bool :=
  startsWithL tokSMS line || startsWithL "Call Log".toList line ||
  startsWithL "Calendar".toList line || startsWithL tokInstant line

/-- Loop state of the reassembly: records emitted so far (in emission
order, with the per-record parsing and batching abstracted away), the
record being accumulated, the detected type of the current record
(`null` before the first start line) and the skipped-line counter. -/
structure ReasmState where
  emitted : List (List Str)
  currentRecord : List Str
  recordType : Option Str
  skippedLines : Nat
deriving DecidableEq, Repr

/-- One iteration of the `for await (const line of rl)` loop of
`importLogFile`, restricted to its record-grouping effect: empty lines
are counted and skipped, a record-start line first emits the accumulated
record (only if one exists and a type was detected) and opens a new one,
and any other line is appended to the current record. -/
def reassembleStep (st : ReasmState) (line : Str) : ReasmState :=
  if trimStr line = [] then { st with skippedLines := st.skippedLines + 1 }
  else if isRecordStartAdv line then
    { st with
      emitted :=
        if st.currentRecord ≠ [] ∧ st.recordType.isSome then
          st.emitted ++ [st.currentRecord]
        else st.emitted,
      currentRecord := [line],
      recordType := some (detectRecordTypeAdv line) }
  else { st with currentRecord := st.currentRecord ++ [line] }

/-- The end-of-stream flush of `importLogFile`: the last accumulated
record is emitted under the same condition as in the loop. -/
def reassembleFinish (st : ReasmState) : List (List Str) × Nat :=
  (if st.currentRecord ≠ [] ∧ st.recordType.isSome then
    st.emitted ++ [st.currentRecord]
   else st.emitted, st.skippedLines)

/-- The record grouping performed by `importLogFile`: emitted records in
order, plus the skipped-line count. -/
def importReassemble (lines : List Str) : List (List Str) × Nat :=
  reassembleFinish (lines.foldl reassembleStep ⟨[], [], none, 0⟩)

def filterNonEmptyLines (lines : List Str) : List Str :=
  lines.filter (fun l => trimStr l ≠ [])

def countEmptyLines (lines : List Str) : Nat :=
  lines.countP (fun l => trimStr l = [])

/-- Group a list of non-empty lines whose head is a record-start line:
each record is a start line plus the following non-start lines. -/
def groupStarts : List Str → List (List Str)
  | [] => []
  | l :: rest =>
    let seg := rest.takeWhile (fun x => !(isRecordStartAdv x))
    (l :: seg) :: groupStarts (rest.drop seg.length)
termination_by ls => ls.length
decreasing_by
  simp only [List.length_drop, List.length_cons]
  omega

/-- Continue an open record `cur` over the remaining non-empty lines. -/
def groupCont (cur : List Str) (ls : List Str) : List (List Str) :=
  (cur ++ ls.takeWhile (fun x => !(isRecordStartAdv x))) ::
    groupStarts (ls.drop (ls.takeWhile (fun x => !(isRecordStartAdv x))).length)

/-- The records `importLogFile` emits, stated declaratively: drop
everything before the first record-start line (those lines are
accumulated but never emitted, because no record type was detected),
then split the non-empty lines into segments at each start line. -/
def recordsSpecAdv (lines : List Str) : List (List Str) :=
  groupStarts ((filterNonEmptyLines lines).dropWhile (fun l => !(isRecordStartAdv l)))

/-- Grammar of a record-start line as the claim states it, modelled from
the spec's words (§4.1): optional leading numeric id, a type token among
SMS / Call Log / Calendar / Instant, an optional From/To token, then a
day/month/year date, possibly followed by trailing free text. -/
def specRecordStartLine (l : Str) : Bool :=
  (let s0 := l.dropWhile isWS
   let ds := s0.takeWhile isDigitCh
   let s1 := if ds = [] then s0 else (s0.drop ds.length).dropWhile isWS
   (altLit [tokSMS, "Call Log".toList, "Calendar".toList, tokInstant] s1).findSome?
     fun ty =>
       let s2 := ty.2.dropWhile isWS
       (optCands (altLit [tokFrom, tokTo] s2) s2).findSome? fun dir =>
         let s3 := dir.2.dropWhile isWS
         (matchDate s3).map fun d => d.2).isSome

/- ## Contact merge / normalize pass
(src/backend/src/scripts/normalize-phone-numbers.ts) -/

/-- `prisma.message.updateMany({ where: { senderId: fromId }, data:
{ senderId: toId } })`. -/
def updateSenderRefs (st : Store) (fromId toId : Nat) : Store :=
  { st with messages := st.messages.map (fun m =>
      if m.senderId = some fromId then { m with senderId := some toId } else m) }

def updateReceiverRefs (st : Store) (fromId toId : Nat) : Store :=
  { st with messages := st.messages.map (fun m =>
      if m.receiverId = some fromId then { m with receiverId := some toId } else m) }

def deleteContact (st : Store) (cid : Nat) : Store :=
  { st with contacts := st.contacts.filter (fun c => c.id ≠ cid) }

def updateContactPhone (st : Store) (cid : Nat) (p : Str) : Store :=
  { st with contacts := st.contacts.map (fun c =>
      if c.id = cid then { c with phoneNumber := p } else c) }

def findContactById (st : Store) (cid : Nat) : Option Contact :=
  st.contacts.find? (fun c => c.id = cid)

def findContactByPhone (st : Store) (p : Str) : Option Contact :=
  st.contacts.find? (fun c => c.phoneNumber = p)

/-- Reassign a mergee's sent and received messages to the keeper and
delete the mergee contact — the merge body of the pass. -/
def mergeInto (st : Store) (keepId mergeId : Nat) : Store :=
  deleteContact (updateReceiverRefs (updateSenderRefs st mergeId keepId)
    mergeId keepId) mergeId

/-- `duplicates[normalized].push(contact.id)` on an insertion-ordered
object keyed by the normalized number. -/
def addDup (acc : List (Str × List Nat)) (key : Str) (cid : Nat) :
    List (Str × List Nat) :=
  match acc with
  | [] => [(key, [cid])]
  | e :: t => if e.1 = key then (e.1, e.2 ++ [cid]) :: t else e :: addDup t key cid

/-- The grouping loop of `normalizePhoneNumbers`: only contacts whose
stored number differs from its normalized form enter the `duplicates`
map, keyed by the normalized number in insertion order. -/
def collectDuplicates (contacts : List Contact) : List (Str × List Nat) :=
  contacts.foldl (fun acc c =>
    let normalized := normalizePhoneNumber c.phoneNumber
    if normalized ≠ c.phoneNumber then addDup acc normalized c.id else acc) []

/-- The body of the `Object.entries(duplicates)` loop of
`normalizePhoneNumbers` (lines 39-113): groups of several ids merge into
the first id and take the canonical number; a singleton whose stored
number differs is updated in place unless another contact already holds
the canonical number, in which case it merges into that contact. -/
def handleGroup (st : Store) (g : Str × List Nat) : Store :=
  if g.2.length > 1 then
    match g.2 with
    | [] => st
    | keepId :: mergeIds =>
      updateContactPhone
        (mergeIds.foldl (fun acc mid => mergeInto acc keepId mid) st)
        keepId g.1
  else
    match g.2 with
    | [cid] =>
      match findContactById st cid with
      | some contact =>
        if contact.phoneNumber ≠ g.1 then
          match findContactByPhone st g.1 with
          | some existing => mergeInto st existing.id cid
          | none => updateContactPhone st cid g.1
        else st
      | none => st
    | _ => st

/-- `normalizePhoneNumbers` (normalize-phone-numbers.ts, lines 26-115),
its effect on the store. -/
def normalizePhoneNumbersPass (s : Store) : Store :=
  (collectDuplicates s.contacts).foldl handleGroup s

def c7local : Contact := ⟨1, "7771234".toList, some "A".toList, .INDIVIDUAL⟩

def c7canon : Contact := ⟨2, "+9607771234".toList, some "B".toList, .INDIVIDUAL⟩

/- ## Receiver Backfill pass (src/unnamed/part_006,
fixToMessagesWithoutReceiver) -/

/-- Strict comparison of stored timestamps, the database's `lt` on
datetimes: lexicographic on the calendar components; an Invalid Date
compares with nothing. -/
def jsdLt (a b : JsDate) : Bool :=
  match a, b with
  | .valid x, .valid y =>
    x.year < y.year ||
      (x.year = y.year && (x.month < y.month ||
        (x.month = y.month && (x.day < y.day ||
          (x.day = y.day && (x.hour < y.hour ||
            (x.hour = y.hour && (x.minute < y.minute ||
              (x.minute = y.minute && x.second < y.second)))))))))
  | _, _ => false

def jsdLe (a b : JsDate) : Bool :=
  jsdLt a b || a = b

/-- The choice made by `findFirst` with `orderBy: { timestamp: 'desc' }`:
an element of maximal timestamp (ties broken by table order, first row
wins). -/
def pickMaxTs : List DbMessage → Option DbMessage
  | [] => none
  | m :: rest =>
    some (rest.foldl (fun acc x =>
      if jsdLt acc.timestamp x.timestamp then x else acc) m)

/-- The `findFirst` of `fixToMessagesWithoutReceiver`: the nearest
strictly-earlier message (by timestamp, across all contacts) having a
non-null `senderId`. -/
def findPrevMsg (st : Store) (t : JsDate) : Option DbMessage :=
  pickMaxTs (st.messages.filter (fun m => m.senderId.isSome && jsdLt m.timestamp t))

/-- `prisma.message.update({ where: { id }, data: { receiverId } })`. -/
def updateReceiverById (st : Store) (mid rid : Nat) : Store :=
  { st with messages := st.messages.map (fun m =>
      if m.id = mid then { m with receiverId := some rid } else m) }

/-- The `where` clause of the target query: direction TO and no
receiver. -/
def isBackfillTarget (m : DbMessage) : Bool :=
  m.direction = Direction.TO && m.receiverId = none

/-- Stable insertion into an ascending-timestamp list, realizing the
query's `orderBy: { timestamp: 'asc' }`. -/
def insertByTs (m : DbMessage) : List DbMessage → List DbMessage
  | [] => [m]
  | x :: xs =>
    if jsdLe m.timestamp x.timestamp then m :: x :: xs
    else x :: insertByTs m xs

def sortByTs (l : List DbMessage) : List DbMessage :=
  l.foldr insertByTs []

/-- The messages the pass iterates over, in ascending timestamp order. -/
def backfillTargets (s : Store) : List DbMessage :=
  sortByTs (s.messages.filter isBackfillTarget)

/-- The loop body of `fixToMessagesWithoutReceiver` on
(store, fixedCount, skippedCount): find the previous message in the
current store and resolve its included `sender` relation (the contact
referenced by its `senderId`; a null or dangling `senderId` gives no
sender).  The guard `previousMessage && previousMessage.sender` passes
exactly when that resolution succeeds: then the target's receiver is set
to the sender's id and the fix is counted, otherwise a skip is counted. -/
def backfillStep (acc : Store × Nat × Nat) (m : DbMessage) :
    Store × Nat × Nat :=
  let senderOpt := (findPrevMsg acc.1 m.timestamp).bind (fun prev =>
    prev.senderId.bind (fun sid => acc.1.contacts.find? (fun c => c.id = sid)))
  match senderOpt with
  | some sender =>
    (updateReceiverById acc.1 m.id sender.id, acc.2.1 + 1, acc.2.2)
  | none => (acc.1, acc.2.1, acc.2.2 + 1)

/-- `fixToMessagesWithoutReceiver` (part_006, lines 312-406): returns
the final store, the fixed count and the skipped count. -/
def fixToMessagesWithoutReceiver (s : Store) : Store × Nat × Nat :=
  (backfillTargets s).foldl backfillStep (s, 0, 0)

/- Bookkeeping for the backfill proof: running the loop only ever
rewrites `receiverId` fields of already-processed targets, which is
captured by an explicit assignment list applied to the initial store. -/

def lookupAssign (A : List (Nat × Nat)) (k : Nat) : Option Nat :=
  match A with
  | [] => none
  | e :: t => if e.1 = k then some e.2 else lookupAssign t k

def assignFn (A : List (Nat × Nat)) (m : DbMessage) : DbMessage :=
  match lookupAssign A m.id with
  | some rid => { m with receiverId := some rid }
  | none => m

def applyAssigns (A : List (Nat × Nat)) (st : Store) : Store :=
  { st with messages := st.messages.map (assignFn A) }

/-- The receiver the pass will assign to a target with this timestamp:
the sender of the nearest strictly-earlier message. -/
def prevSid (s : Store) (t : JsDate) : Option Nat :=
  (findPrevMsg s t).bind (fun p => p.senderId)

/-- The receiver assignments the whole pass performs, one per target
with an available previous sender. -/
def assignsOf (s : Store) (targets : List DbMessage) : List (Nat × Nat) :=
  targets.filterMap (fun m =>
    (prevSid s m.timestamp).map (fun sid => (m.id, sid)))

def bfContact : Contact := ⟨1, "+9607770001".toList, none, .INDIVIDUAL⟩

def bfMsg1 : DbMessage :=
  ⟨1, .SMS, .FROM, some 1, none, .valid ⟨2014, 6, 2, 0, 0, 0⟩,
   some "a".toList, none, none, none⟩

def bfMsg2 : DbMessage :=
  ⟨2, .SMS, .TO, none, none, .valid ⟨2014, 6, 3, 0, 0, 0⟩,
   some "b".toList, none, none, none⟩

def bfMsg3 : DbMessage :=
  ⟨3, .SMS, .TO, none, none, .valid ⟨2014, 6, 1, 0, 0, 0⟩,
   some "c".toList, none, none, none⟩

def bfStore : Store := ⟨[bfContact], [bfMsg1, bfMsg2, bfMsg3], 2, 4⟩

theorem stripFormatting_idem (s : Str) :
    stripFormatting (stripFormatting s) = stripFormatting s := by
  simp [stripFormatting, List.filter_filter]

theorem stripFormatting_cons_keep (c : Char) (s : Str)
    (h : isPhoneFormatCh c = false) :
    stripFormatting (c :: s) = c :: stripFormatting s := by
  simp [stripFormatting, h]

theorem stripFormatting_append (s t : Str) :
    stripFormatting (s ++ t) = stripFormatting s ++ stripFormatting t := by
  simp [stripFormatting]

/-- A string that already carries the `+960` country code and contains no
formatting characters is a fixed point of the normalizer. -/
theorem normalizePhoneNumber_fixed (r : Str)
    (hpre : startsWithL plus960 r = true)
    (hclean : stripFormatting r = r) :
    normalizePhoneNumber r = r := by
  have hne : r ≠ [] := by
    intro h
    subst h
    simp [startsWithL, plus960] at hpre
  simp [normalizePhoneNumber, hne, hclean, hpre]

theorem startsWithL_plus_cons (r : Str) :
    startsWithL plus960 ('+' :: r) = startsWithL bare960 r := by
  simp [startsWithL, plus960, bare960]

theorem normalizePhoneNumber_cases (x : Str) :
    normalizePhoneNumber x = x ∨
      (startsWithL plus960 (normalizePhoneNumber x) = true ∧
        stripFormatting (normalizePhoneNumber x) = normalizePhoneNumber x) := by
  by_cases hx : x = []
  · left
    simp [normalizePhoneNumber, hx]
  · unfold normalizePhoneNumber
    rw [if_neg hx]
    by_cases h1 : startsWithL plus960 (stripFormatting x) = true
    · right
      rw [if_pos h1]
      exact ⟨h1, stripFormatting_idem x⟩
    · rw [if_neg h1]
      by_cases h2 : startsWithL bare960 (stripFormatting x) = true
      · right
        rw [if_pos h2]
        refine ⟨?_, ?_⟩
        · rw [startsWithL_plus_cons]
          exact h2
        · rw [stripFormatting_cons_keep '+' (stripFormatting x) (by decide)]
          rw [stripFormatting_idem]
      · rw [if_neg h2]
        by_cases h3 : isLocalSeven (stripFormatting x) = true
        · right
          rw [if_pos h3]
          refine ⟨?_, ?_⟩
          · simp [startsWithL, plus960]
          · rw [stripFormatting_append, stripFormatting_idem]
            rfl
        · rw [if_neg h3]
          by_cases h4 : isLocalSix (stripFormatting x) = true
          · right
            rw [if_pos h4]
            refine ⟨?_, ?_⟩
            · simp [startsWithL, plus960, plus9607]
            · rw [stripFormatting_append, stripFormatting_idem]
              rfl
          · left
            rw [if_neg h4]

/-- C1: the phone normalizer is idempotent: for every input string,
normalizing twice gives the same result as normalizing once. -/
theorem normalizePhoneNumber_idem (x : Str) :
    normalizePhoneNumber (normalizePhoneNumber x) = normalizePhoneNumber x := by
  rcases normalizePhoneNumber_cases x with h | ⟨hpre, hclean⟩
  · rw [h, h]
  · exact normalizePhoneNumber_fixed _ hpre hclean

/-- C2: the two-line record parses to an SMS from +9607777472 (Ahmed)
with content "Hello there" at 2014-06-05T05:07:40 (05/06/2014 is
day/month/year). -/
theorem parseMessageRecord_example :
    parseMessageRecord
      ["1 SMS From 05/06/2014 From: +9607777472 Ahmed".toList,
       "05:07:40(UTC+0) Hello there".toList] 1 =
    some {
      id := some 1
      type := .SMS
      direction := .FROM
      timestamp := .valid ⟨2014, 6, 5, 5, 7, 40⟩
      phoneNumber := some "+9607777472".toList
      name := some "Ahmed".toList
      content := "Hello there".toList
      rawLines := ["1 SMS From 05/06/2014 From: +9607777472 Ahmed".toList,
                   "05:07:40(UTC+0) Hello there".toList] } := by
  rfl

/-- C10: with duplicate skipping enabled, a suppressed duplicate makes
`insertMessage` return before resolving any contact: the entire state —
store, contactCache, lastContactId and all statistics — is unchanged. -/
theorem insertMessage_dup_frame (parsed : AdvParsed) (s : ImporterState)
    (h : (findDuplicate s parsed).isSome = true) :
    insertMessage parsed true s = s := by
  simp [insertMessage, h]

/-- Witness for C10 at a concrete duplicate. -/
theorem insertMessage_dup_frame_witness :
    insertMessage sampleParsed true (insertMessage sampleParsed true sampleState) =
      insertMessage sampleParsed true sampleState :=
  insertMessage_dup_frame sampleParsed
    (insertMessage sampleParsed true sampleState) (by decide)

/-- C3: a TO message with no receiver number (such records also carry no
sender number), inserted while the session's last resolved contact is
`c`, is persisted with `receiverId = c`. -/
theorem insertMessage_receiverFallback (parsed : AdvParsed)
    (s : ImporterState) (c : Nat)
    (hdir : parsed.direction = .TO)
    (hrecv : parsed.receiverNumber = none)
    (hsend : parsed.senderNumber = none)
    (hlast : s.lastContactId = some c)
    (hc : c ≠ 0)
    (hnodup : findDuplicate s parsed = none) :
    (insertMessage parsed true s).store.messages =
      s.store.messages ++ [{
        id := s.store.nextMessageId
        messageType := parsed.messageType
        direction := parsed.direction
        senderId := none
        receiverId := some c
        timestamp := parsed.timestamp
        content := parsed.content
        attachment := parsed.attachment
        location := parsed.location
        rawLine := jsStrOrNone parsed.rawLine }] := by
  simp [insertMessage, insertedMsg, hnodup, resolveSender, resolveReceiver,
    hsend, hrecv, hdir, hlast, jsTruthyStr, jsTruthyId, hc]

/-- Witness for C3: the fallback receiver is contact 7. -/
theorem insertMessage_receiverFallback_witness :
    (insertMessage sampleParsed true sampleState).store.messages =
      sampleState.store.messages ++ [{
        id := sampleState.store.nextMessageId
        messageType := sampleParsed.messageType
        direction := sampleParsed.direction
        senderId := none
        receiverId := some 7
        timestamp := sampleParsed.timestamp
        content := sampleParsed.content
        attachment := sampleParsed.attachment
        location := sampleParsed.location
        rawLine := jsStrOrNone sampleParsed.rawLine }] :=
  insertMessage_receiverFallback sampleParsed sampleState 7 rfl rfl rfl rfl
    (by decide) rfl

/-- C5 counterexample: a resolution served from the session's
contactCache returns the cached contact 5 but leaves the whole session
unchanged — `lastContactId` still points at contact 9, so not every
resolution updates `lastContactId`. -/
theorem getOrCreateContact_cacheHit_counterexample :
    getOrCreateContact "+9607777472".toList none cacheHitState = (5, cacheHitState) ∧
    (getOrCreateContact "+9607777472".toList none cacheHitState).2.lastContactId = some 9 := by
  decide

theorem lookupCache_cacheSet (cache : List (Str × Nat)) (p : Str) (cid : Nat) :
    lookupCache (cacheSet cache p cid) p = some cid := by
  induction cache with
  | nil => simp [cacheSet, lookupCache, List.find?]
  | cons e t ih =>
    by_cases h : e.1 = p
    · simp [cacheSet, h, lookupCache, List.find?]
    · simp only [cacheSet, if_neg h]
      simpa [lookupCache, List.find?, h] using ih

/-- C5 amended: a resolution that misses the contactCache (found in the
store or newly created) updates `lastContactId` to the resolved
contact's id and records it in the cache, while a cache-served
resolution returns the cached id and leaves the session unchanged. -/
theorem getOrCreateContact_lastContact (p : Str) (n : Option Str)
    (s : ImporterState) :
    (∀ cid, lookupCache s.contactCache p = some cid →
      getOrCreateContact p n s = (cid, s)) ∧
    (lookupCache s.contactCache p = none →
      (getOrCreateContact p n s).2.lastContactId =
        some (getOrCreateContact p n s).1 ∧
      lookupCache (getOrCreateContact p n s).2.contactCache p =
        some (getOrCreateContact p n s).1) := by
  constructor
  · intro cid h
    simp [getOrCreateContact, h]
  · intro h
    unfold getOrCreateContact
    rw [h]
    cases hf : s.store.contacts.find? (fun c => c.phoneNumber = p) with
    | some c => simp [lookupCache_cacheSet]
    | none => simp [lookupCache_cacheSet]

/-- Witness for C5 amended: a cache hit at contact 5 and a cache-missing
creation, at concrete inputs. -/
theorem getOrCreateContact_lastContact_witness :
    getOrCreateContact "+9607777472".toList none cacheHitState = (5, cacheHitState) ∧
    ((getOrCreateContact "+9607770000".toList none sampleState).2.lastContactId =
        some (getOrCreateContact "+9607770000".toList none sampleState).1 ∧
      lookupCache (getOrCreateContact "+9607770000".toList none sampleState).2.contactCache
          "+9607770000".toList =
        some (getOrCreateContact "+9607770000".toList none sampleState).1) :=
  ⟨(getOrCreateContact_lastContact "+9607777472".toList none cacheHitState).1 5 (by decide),
   (getOrCreateContact_lastContact "+9607770000".toList none sampleState).2 (by decide)⟩

theorem find?_append_none {α : Type} (p : α → Bool) {l1 : List α}
    (l2 : List α) (h : List.find? p l1 = none) :
    List.find? p (l1 ++ l2) = List.find? p l2 := by
  induction l1 with
  | nil => simp
  | cons a t ih =>
    by_cases hpa : p a = true
    · rw [List.find?_cons_of_pos _ hpa] at h
      cases h
    · rw [List.find?_cons_of_neg _ hpa] at h
      rw [List.cons_append, List.find?_cons_of_neg _ hpa]
      exact ih h

theorem getOrCreateContact_messages (p : Str) (n : Option Str)
    (s : ImporterState) :
    ((getOrCreateContact p n s).2).store.messages = s.store.messages := by
  unfold getOrCreateContact
  cases lookupCache s.contactCache p with
  | some cid => rfl
  | none =>
    cases s.store.contacts.find? (fun c => c.phoneNumber = p) with
    | some c => rfl
    | none => rfl

theorem getOrCreateContact_createdMessages (p : Str) (n : Option Str)
    (s : ImporterState) :
    ((getOrCreateContact p n s).2).stats.createdMessages =
      s.stats.createdMessages := by
  unfold getOrCreateContact
  cases lookupCache s.contactCache p with
  | some cid => rfl
  | none =>
    cases s.store.contacts.find? (fun c => c.phoneNumber = p) with
    | some c => rfl
    | none => rfl

theorem resolveSender_messages (parsed : AdvParsed) (s : ImporterState) :
    ((resolveSender parsed s).2).store.messages = s.store.messages := by
  unfold resolveSender
  split
  · exact getOrCreateContact_messages _ _ _
  · rfl

theorem resolveSender_createdMessages (parsed : AdvParsed) (s : ImporterState) :
    ((resolveSender parsed s).2).stats.createdMessages =
      s.stats.createdMessages := by
  unfold resolveSender
  split
  · exact getOrCreateContact_createdMessages _ _ _
  · rfl

theorem resolveReceiver_messages (parsed : AdvParsed) (s : ImporterState) :
    ((resolveReceiver parsed s).2).store.messages = s.store.messages := by
  unfold resolveReceiver
  split
  · exact getOrCreateContact_messages _ _ _
  · split
    · rfl
    · rfl

theorem resolveReceiver_createdMessages (parsed : AdvParsed) (s : ImporterState) :
    ((resolveReceiver parsed s).2).stats.createdMessages =
      s.stats.createdMessages := by
  unfold resolveReceiver
  split
  · exact getOrCreateContact_createdMessages _ _ _
  · split
    · rfl
    · rfl

theorem matchesDupKey_insertedMsg (parsed : AdvParsed)
    (a b : Option Nat) (st : ImporterState) :
    matchesDupKey parsed (insertedMsg parsed a b st) = true := by
  cases hc : parsed.content with
  | none => simp [matchesDupKey, insertedMsg, hc]
  | some c => simp [matchesDupKey, insertedMsg, hc]

/-- A non-duplicate insertion appends exactly the built message row. -/
theorem insertMessage_messages_eq (parsed : AdvParsed) (s : ImporterState)
    (h : findDuplicate s parsed = none) :
    (insertMessage parsed true s).store.messages =
      s.store.messages ++
        [insertedMsg parsed (resolveSender parsed s).1
          (resolveReceiver parsed (resolveSender parsed s).2).1
          (resolveReceiver parsed (resolveSender parsed s).2).2] := by
  simp [insertMessage, h, resolveReceiver_messages, resolveSender_messages]

/-- Shared skip lemma: with duplicate skipping on and a duplicate
present, `insertMessage` is the identity. -/
theorem insertMessage_skip_of_dup (parsed : AdvParsed) (s : ImporterState)
    (h : (findDuplicate s parsed).isSome = true) :
    insertMessage parsed true s = s := by
  simp [insertMessage, h]

/-- C4 counterexample: importing the same record twice with duplicate
skipping on yields `createdMessages = 1`, but the second (suppressed)
insertion leaves the state entirely unchanged — the `ImportStats` record
has no duplicate-skip field, so no skipped-duplicate counter is
incremented anywhere. -/
theorem insertMessage_noDupCounter_counterexample :
    insertMessage sampleParsedB true (insertMessage sampleParsedB true sampleState) =
      insertMessage sampleParsedB true sampleState ∧
    (insertMessage sampleParsedB true sampleState).stats =
      { emptyStats with createdMessages := 1 } := by
  decide

/-- C4 amended: with duplicate skipping enabled an existing message with
the same (messageType, direction, timestamp, content) key suppresses the
insertion, leaving the state unchanged (the skip is only logged; no
counter records it); importing the same well-formed record twice yields
exactly one created message. -/
theorem insertMessage_skipDuplicates (parsed : AdvParsed) (s : ImporterState)
    (h : findDuplicate s parsed = none) :
    insertMessage parsed true (insertMessage parsed true s) =
      insertMessage parsed true s ∧
    (insertMessage parsed true s).stats.createdMessages =
      s.stats.createdMessages + 1 := by
  constructor
  · apply insertMessage_skip_of_dup
    unfold findDuplicate at h ⊢
    rw [insertMessage_messages_eq parsed s h]
    rw [find?_append_none _ _ h]
    simp [List.find?, matchesDupKey_insertedMsg]
  · simp [insertMessage, h, resolveReceiver_createdMessages,
      resolveSender_createdMessages]

/-- Witness for C4 amended at a concrete record. -/
theorem insertMessage_skipDuplicates_witness :
    insertMessage sampleParsedC true (insertMessage sampleParsedC true sampleState) =
      insertMessage sampleParsedC true sampleState ∧
    (insertMessage sampleParsedC true sampleState).stats.createdMessages =
      sampleState.stats.createdMessages + 1 :=
  insertMessage_skipDuplicates sampleParsedC sampleState (by decide)

/-- C9 counterexample: the record "Calendar hello" has a matching coarse
type token (`detectRecordType` yields CALENDAR) but its detailed parser
returns no result, and `processRecord` leaves the statistics — in
particular the `errors` counter — completely unchanged, so the failure
is not counted anywhere. -/
theorem processRecord_nullParse_counterexample :
    detectRecordTypeAdv "Calendar hello".toList = "CALENDAR".toList ∧
    processRecord ["Calendar hello".toList] "CALENDAR".toList emptyStats =
      (none, emptyStats) := by
  decide

/-- C9 amended: a type-specific parser returning no result makes
`processRecord` drop the record silently, with every statistic (the
`errors` counter included) unchanged; only a thrown exception is counted
in `errors`, and the embedded parsers never throw. -/
theorem processRecord_nullParse (lines : List Str) (rt : Str) (st : Stats)
    (h : parseRecordAdv (joinNL lines) rt = none) :
    processRecord lines rt st = (none, st) := by
  simp [processRecord, h]

/-- Witness for C9 amended at the concrete failing record. -/
theorem processRecord_nullParse_witness :
    processRecord ["Calendar hello".toList] "CALENDAR".toList emptyStats =
      (none, emptyStats) :=
  processRecord_nullParse ["Calendar hello".toList] "CALENDAR".toList
    emptyStats (by decide)

theorem groupStarts_nil : groupStarts [] = [] := by
  rw [groupStarts]

theorem groupCont_nil (cur : List Str) : groupCont cur [] = [cur] := by
  simp [groupCont, groupStarts_nil]

theorem groupStarts_cons_eq (l : Str) (fr : List Str) :
    groupStarts (l :: fr) = groupCont [l] fr := by
  rw [groupStarts]
  simp [groupCont]

theorem groupCont_start (cur : List Str) (l : Str) (fr : List Str)
    (hs : isRecordStartAdv l = true) :
    groupCont cur (l :: fr) = cur :: groupCont [l] fr := by
  simp [groupCont, List.takeWhile_cons, hs, groupStarts_cons_eq]

theorem groupCont_cont (cur : List Str) (l : Str) (fr : List Str)
    (hs : isRecordStartAdv l = false) :
    groupCont cur (l :: fr) = groupCont (cur ++ [l]) fr := by
  simp [groupCont, List.takeWhile_cons, hs, List.drop_succ_cons,
    List.append_assoc]

theorem reassemble_loop_open (lines : List Str) :
    ∀ em cur rt sk, cur ≠ [] →
    reassembleFinish (lines.foldl reassembleStep ⟨em, cur, some rt, sk⟩) =
      (em ++ groupCont cur (filterNonEmptyLines lines),
       sk + countEmptyLines lines) := by
  induction lines with
  | nil =>
    intro em cur rt sk hcur
    simp [reassembleFinish, groupCont_nil, filterNonEmptyLines,
      countEmptyLines, hcur]
  | cons l rest ih =>
    intro em cur rt sk hcur
    rw [List.foldl_cons]
    by_cases hl : trimStr l = []
    · rw [show reassembleStep ⟨em, cur, some rt, sk⟩ l =
          ⟨em, cur, some rt, sk + 1⟩ from by simp [reassembleStep, hl]]
      rw [ih em cur rt (sk + 1) hcur]
      simp only [filterNonEmptyLines, countEmptyLines] at *
      simp [List.filter_cons, List.countP_cons, hl]
      omega
    · by_cases hs : isRecordStartAdv l = true
      · rw [show reassembleStep ⟨em, cur, some rt, sk⟩ l =
            ⟨em ++ [cur], [l], some (detectRecordTypeAdv l), sk⟩ from by
          simp [reassembleStep, hl, hs, hcur]]
        rw [ih (em ++ [cur]) [l] (detectRecordTypeAdv l) sk (by simp)]
        simp only [filterNonEmptyLines, countEmptyLines] at *
        simp [List.filter_cons, List.countP_cons, hl, hs, groupCont_start]
      · rw [show reassembleStep ⟨em, cur, some rt, sk⟩ l =
            ⟨em, cur ++ [l], some rt, sk⟩ from by
          simp [reassembleStep, hl, hs]]
        rw [ih em (cur ++ [l]) rt sk (by simp)]
        simp only [filterNonEmptyLines, countEmptyLines] at *
        simp [List.filter_cons, List.countP_cons, hl, hs, groupCont_cont]

theorem reassemble_loop_idle (lines : List Str) :
    ∀ em cur sk,
    reassembleFinish (lines.foldl reassembleStep ⟨em, cur, none, sk⟩) =
      (em ++ groupStarts ((filterNonEmptyLines lines).dropWhile
          (fun l => !(isRecordStartAdv l))),
       sk + countEmptyLines lines) := by
  induction lines with
  | nil =>
    intro em cur sk
    simp [reassembleFinish, filterNonEmptyLines, countEmptyLines,
      groupStarts_nil]
  | cons l rest ih =>
    intro em cur sk
    rw [List.foldl_cons]
    by_cases hl : trimStr l = []
    · rw [show reassembleStep ⟨em, cur, none, sk⟩ l =
          ⟨em, cur, none, sk + 1⟩ from by simp [reassembleStep, hl]]
      rw [ih em cur (sk + 1)]
      simp only [filterNonEmptyLines, countEmptyLines] at *
      simp [List.filter_cons, List.countP_cons, hl]
      omega
    · by_cases hs : isRecordStartAdv l = true
      · rw [show reassembleStep ⟨em, cur, none, sk⟩ l =
            ⟨em, [l], some (detectRecordTypeAdv l), sk⟩ from by
          simp [reassembleStep, hl, hs]]
        rw [reassemble_loop_open rest em [l] (detectRecordTypeAdv l) sk (by simp)]
        simp only [filterNonEmptyLines, countEmptyLines] at *
        simp [List.filter_cons, List.countP_cons, hl, hs,
          List.dropWhile_cons, groupStarts_cons_eq]
      · rw [show reassembleStep ⟨em, cur, none, sk⟩ l =
            ⟨em, cur ++ [l], none, sk⟩ from by
          simp [reassembleStep, hl, hs]]
        rw [ih em (cur ++ [l]) sk]
        simp only [filterNonEmptyLines, countEmptyLines] at *
        simp [List.filter_cons, List.countP_cons, hl, hs, List.dropWhile_cons]

/-- C8 amended: the advanced importer's reassembler treats exactly the
lines beginning with one of the literal tokens SMS / Call Log /
Calendar / Instant as record-start lines (no leading numeric id or date
is required or allowed before the token); it emits the accumulated
record when a new start line appears, appends every other non-empty
line to the current record (lines before the first start line are
accumulated but never emitted), skips and counts empty lines without
terminating a record, and emits the last accumulated record at
end-of-stream. -/
theorem importReassemble_spec (lines : List Str) :
    importReassemble lines = (recordsSpecAdv lines, countEmptyLines lines) := by
  unfold importReassemble recordsSpecAdv
  rw [reassemble_loop_idle lines [] [] 0]
  simp

/-- C8 counterexample: the line "1 SMS From 05/06/2014 Hi" matches the
claimed record-start grammar (leading numeric id), yet the reassembler
treats it as a continuation line: both lines end up in a single record
instead of two. -/
theorem importReassemble_grammar_counterexample :
    specRecordStartLine "1 SMS From 05/06/2014 Hi".toList = true ∧
    importReassemble
      ["SMS To 01/01/2020 x".toList, "1 SMS From 05/06/2014 Hi".toList] =
      ([["SMS To 01/01/2020 x".toList, "1 SMS From 05/06/2014 Hi".toList]], 0) := by
  decide

/-- C7: on a store holding contacts "7771234" (id 1) and "+9607771234"
(id 2) — the same subscriber — the merge/normalize pass leaves exactly
the one canonical contact "+9607771234", and every message that
referenced contact 1 as sender or receiver now references contact 2,
for every message table. -/
theorem normalizePhoneNumbersPass_merges (ms : List DbMessage) (nc nm : Nat) :
    normalizePhoneNumbersPass ⟨[c7local, c7canon], ms, nc, nm⟩ =
      ⟨[c7canon],
       ms.map (fun m =>
         { m with
           senderId := if m.senderId = some 1 then some 2 else m.senderId,
           receiverId := if m.receiverId = some 1 then some 2 else m.receiverId }),
       nc, nm⟩ := by
  have hdup : collectDuplicates [c7local, c7canon] =
      [("+9607771234".toList, [1])] := by decide
  have hfind1 : findContactById ⟨[c7local, c7canon], ms, nc, nm⟩ 1 =
      some c7local := by
    simp [findContactById, List.find?, c7local, c7canon]
  have hfind2 : findContactByPhone ⟨[c7local, c7canon], ms, nc, nm⟩
      "+9607771234".toList = some c7canon := by
    simp [findContactByPhone, List.find?, c7local, c7canon]
  unfold normalizePhoneNumbersPass
  simp only [hdup, List.foldl_cons, List.foldl_nil]
  unfold handleGroup
  rw [if_neg (by decide)]
  split
  next cid hcid =>
    simp at hcid
    subst hcid
    rw [hfind1]
    split
    next contact hc =>
      rw [Option.some.injEq] at hc
      subst hc
      rw [if_pos (by decide)]
      rw [hfind2]
      split
      next existing he =>
        rw [Option.some.injEq] at he
        subst he
        unfold mergeInto deleteContact updateReceiverRefs updateSenderRefs
        have hcontacts : List.filter (fun c => c.id ≠ 1) [c7local, c7canon] =
            [c7canon] := by decide
        simp only [List.map_map, hcontacts, Store.mk.injEq, true_and,
          and_true]
        apply List.map_congr_left
        intro m _
        by_cases h1 : m.senderId = some 1 <;>
          by_cases h2 : m.receiverId = some 1 <;> simp [h1, h2, c7canon]
      next he => simp at he
    next hc => simp at hc
  next hc hne => exact absurd rfl (hne 1)

theorem jsdLt_trans {a b c : JsDate} (h1 : jsdLt a b = true)
    (h2 : jsdLt b c = true) : jsdLt a c = true := by
  cases a with
  | invalid => simp [jsdLt] at h1
  | valid x =>
    cases b with
    | invalid => simp [jsdLt] at h1
    | valid y =>
      cases c with
      | invalid => simp [jsdLt] at h2
      | valid z =>
        simp only [jsdLt, Bool.or_eq_true, Bool.and_eq_true,
          decide_eq_true_eq] at h1 h2 ⊢
        omega

theorem jsdLt_irrefl (a : JsDate) : jsdLt a a = false := by
  cases a with
  | invalid => rfl
  | valid x =>
    simp only [jsdLt, Bool.or_eq_false_iff, Bool.and_eq_false_iff,
      decide_eq_false_iff_not, decide_eq_true_eq]
    omega

theorem jsdLt_asymm {a b : JsDate} (h : jsdLt a b = true) :
    jsdLt b a = false := by
  by_cases h2 : jsdLt b a = true
  · exact absurd (jsdLt_trans h h2) (by simp [jsdLt_irrefl])
  · simpa using h2

theorem insertByTs_perm (m : DbMessage) (l : List DbMessage) :
    (insertByTs m l).Perm (m :: l) := by
  induction l with
  | nil => exact List.Perm.refl _
  | cons x xs ih =>
    unfold insertByTs
    by_cases h : jsdLe m.timestamp x.timestamp = true
    · rw [if_pos h]
    · rw [if_neg h]
      exact ((ih.cons x).trans (List.Perm.swap m x xs))

theorem sortByTs_perm (l : List DbMessage) : (sortByTs l).Perm l := by
  induction l with
  | nil => exact List.Perm.refl _
  | cons x xs ih =>
    have : sortByTs (x :: xs) = insertByTs x (sortByTs xs) := rfl
    rw [this]
    exact (insertByTs_perm x (sortByTs xs)).trans (ih.cons x)

theorem foldMax_mem (rest : List DbMessage) :
    ∀ (m : DbMessage), (rest.foldl (fun acc x =>
      if jsdLt acc.timestamp x.timestamp then x else acc) m) ∈ m :: rest := by
  induction rest with
  | nil => intro m; exact List.mem_cons_self m []
  | cons x t ih =>
    intro m
    rw [List.foldl_cons]
    by_cases h : jsdLt m.timestamp x.timestamp = true
    · rw [if_pos h]
      exact List.mem_cons_of_mem m (ih x)
    · rw [if_neg h]
      rcases List.mem_cons.mp (ih m) with h1 | h1
      · rw [h1]
        exact List.mem_cons_self m (x :: t)
      · exact List.mem_cons_of_mem m (List.mem_cons_of_mem x h1)

theorem foldMax_dominance_kept (t : List DbMessage) :
    ∀ (m x : DbMessage), jsdLt m.timestamp x.timestamp = false →
    jsdLt ((t.foldl (fun acc y =>
      if jsdLt acc.timestamp y.timestamp then y else acc) m)).timestamp
      x.timestamp = false := by
  induction t with
  | nil => intro m x h; exact h
  | cons z zs ih =>
    intro m x h
    rw [List.foldl_cons]
    by_cases hz : jsdLt m.timestamp z.timestamp = true
    · rw [if_pos hz]
      apply ih
      by_cases hzx : jsdLt z.timestamp x.timestamp = true
      · exact absurd (jsdLt_trans hz hzx) (by simp [h])
      · simpa using hzx
    · rw [if_neg hz]
      exact ih m x h

theorem foldMax_dominates (rest : List DbMessage) :
    ∀ (m y : DbMessage), y ∈ m :: rest →
    jsdLt ((rest.foldl (fun acc x =>
      if jsdLt acc.timestamp x.timestamp then x else acc) m)).timestamp
      y.timestamp = false := by
  induction rest with
  | nil =>
    intro m y hy
    rcases List.mem_cons.mp hy with h | h
    · rw [h]
      exact jsdLt_irrefl _
    · exact absurd h (List.not_mem_nil y)
  | cons x t ih =>
    intro m y hy
    rw [List.foldl_cons]
    by_cases hz : jsdLt m.timestamp x.timestamp = true
    · rw [if_pos hz]
      rcases List.mem_cons.mp hy with h | h
      · rw [h]
        apply foldMax_dominance_kept
        exact jsdLt_asymm hz
      · rcases List.mem_cons.mp h with h1 | h1
        · rw [h1]
          exact ih x x (List.mem_cons_self x t)
        · exact ih x y (List.mem_cons_of_mem x h1)
    · rw [if_neg hz]
      rcases List.mem_cons.mp hy with h | h
      · rw [h]
        exact ih m m (List.mem_cons_self m t)
      · rcases List.mem_cons.mp h with h1 | h1
        · rw [h1]
          apply foldMax_dominance_kept
          simpa using hz
        · exact ih m y (List.mem_cons_of_mem m h1)

theorem pickMaxTs_mem {l : List DbMessage} {x : DbMessage}
    (h : pickMaxTs l = some x) : x ∈ l := by
  cases l with
  | nil => cases h
  | cons m rest =>
    rw [pickMaxTs] at h
    rw [Option.some.injEq] at h
    exact h ▸ foldMax_mem rest m

theorem pickMaxTs_not_lt {l : List DbMessage} {x : DbMessage}
    (h : pickMaxTs l = some x) :
    ∀ y ∈ l, jsdLt x.timestamp y.timestamp = false := by
  cases l with
  | nil => cases h
  | cons m rest =>
    rw [pickMaxTs] at h
    rw [Option.some.injEq] at h
    intro y hy
    exact h ▸ foldMax_dominates rest m y hy

theorem assignFn_id (A : List (Nat × Nat)) (m : DbMessage) :
    (assignFn A m).id = m.id := by
  unfold assignFn
  cases lookupAssign A m.id <;> rfl

theorem assignFn_senderId (A : List (Nat × Nat)) (m : DbMessage) :
    (assignFn A m).senderId = m.senderId := by
  unfold assignFn
  cases lookupAssign A m.id <;> rfl

theorem assignFn_timestamp (A : List (Nat × Nat)) (m : DbMessage) :
    (assignFn A m).timestamp = m.timestamp := by
  unfold assignFn
  cases lookupAssign A m.id <;> rfl

theorem applyAssigns_nil (s : Store) : applyAssigns [] s = s := by
  have hmap : ∀ l : List DbMessage, l.map (assignFn []) = l := by
    intro l
    induction l with
    | nil => rfl
    | cons a t ih =>
      rw [List.map_cons, ih]
      rw [show assignFn [] a = a from rfl]
  unfold applyAssigns
  rw [hmap]

theorem lookupAssign_append (A B : List (Nat × Nat)) (k : Nat) :
    lookupAssign (A ++ B) k =
      (match lookupAssign A k with
       | some v => some v
       | none => lookupAssign B k) := by
  induction A with
  | nil => simp [lookupAssign]
  | cons e t ih =>
    by_cases h : e.1 = k
    · simp [lookupAssign, h]
    · simp only [List.cons_append, lookupAssign, if_neg h]
      exact ih

theorem filter_map_pres (p : DbMessage → Bool) (f : DbMessage → DbMessage)
    (hf : ∀ m, p (f m) = p m) (l : List DbMessage) :
    (l.map f).filter p = (l.filter p).map f := by
  induction l with
  | nil => rfl
  | cons a t ih =>
    rw [List.map_cons, List.filter_cons, List.filter_cons, hf a]
    cases hp : p a with
    | true => simp [ih]
    | false => simp [ih]

theorem foldChoose_map (f : DbMessage → DbMessage)
    (hts : ∀ m, (f m).timestamp = m.timestamp) (t : List DbMessage) :
    ∀ (m : DbMessage),
    (t.map f).foldl (fun acc x =>
        if jsdLt acc.timestamp x.timestamp then x else acc) (f m) =
      f (t.foldl (fun acc x =>
        if jsdLt acc.timestamp x.timestamp then x else acc) m) := by
  induction t with
  | nil => intro m; rfl
  | cons x xs ih =>
    intro m
    simp only [List.map_cons, List.foldl_cons]
    rw [show (if jsdLt (f m).timestamp (f x).timestamp then f x else f m) =
        f (if jsdLt m.timestamp x.timestamp then x else m) from by
      rw [hts m, hts x]
      by_cases h : jsdLt m.timestamp x.timestamp = true
      · rw [if_pos h, if_pos h]
      · rw [if_neg h, if_neg h]]
    exact ih _

theorem pickMaxTs_map (f : DbMessage → DbMessage)
    (hts : ∀ m, (f m).timestamp = m.timestamp) (l : List DbMessage) :
    pickMaxTs (l.map f) = (pickMaxTs l).map f := by
  cases l with
  | nil => rfl
  | cons m rest =>
    rw [List.map_cons, pickMaxTs, pickMaxTs, Option.map_some']
    exact congrArg some (foldChoose_map f hts rest m)

theorem findPrevMsg_applyAssigns (A : List (Nat × Nat)) (s : Store)
    (t : JsDate) :
    findPrevMsg (applyAssigns A s) t = (findPrevMsg s t).map (assignFn A) := by
  have h1 : (applyAssigns A s).messages = s.messages.map (assignFn A) := rfl
  have hf : ∀ m, ((assignFn A m).senderId.isSome &&
      jsdLt (assignFn A m).timestamp t) =
      (m.senderId.isSome && jsdLt m.timestamp t) := by
    intro m
    rw [assignFn_senderId, assignFn_timestamp]
  rw [findPrevMsg, findPrevMsg, h1]
  rw [filter_map_pres (fun m => m.senderId.isSome && jsdLt m.timestamp t)
    (assignFn A) hf s.messages]
  exact pickMaxTs_map (assignFn A) (assignFn_timestamp A) _

theorem updateReceiver_applyAssigns (s : Store) (A : List (Nat × Nat))
    (mid rid : Nat) (hA : lookupAssign A mid = none) :
    updateReceiverById (applyAssigns A s) mid rid =
      applyAssigns (A ++ [(mid, rid)]) s := by
  unfold updateReceiverById applyAssigns
  simp only [List.map_map]
  refine congrArg (fun M => Store.mk s.contacts M s.nextContactId s.nextMessageId) ?_
  apply List.map_congr_left
  intro m _
  simp only [Function.comp_apply]
  by_cases h : m.id = mid
  · have hAm : lookupAssign A m.id = none := by rw [h]; exact hA
    have hL : assignFn A m = m := by simp [assignFn, hAm]
    have hR : lookupAssign (A ++ [(mid, rid)]) m.id = some rid := by
      rw [lookupAssign_append, hAm]
      simp [lookupAssign, h]
    rw [hL, if_pos h]
    unfold assignFn
    rw [hR]
  · have hR : lookupAssign (A ++ [(mid, rid)]) m.id = lookupAssign A m.id := by
      rw [lookupAssign_append]
      cases hA2 : lookupAssign A m.id with
      | some v => rfl
      | none => simp [lookupAssign, Ne.symm h]
    rw [if_neg (by rw [assignFn_id]; exact h)]
    unfold assignFn
    rw [hR]

theorem findPrevMsg_spec {s : Store} {t : JsDate} {prev : DbMessage}
    (h : findPrevMsg s t = some prev) :
    prev ∈ s.messages ∧ prev.senderId.isSome = true ∧
      jsdLt prev.timestamp t = true := by
  rw [findPrevMsg] at h
  have hmem := pickMaxTs_mem h
  obtain ⟨h1, h2⟩ := List.mem_filter.mp hmem
  simp only [Bool.and_eq_true] at h2
  exact ⟨h1, h2.1, h2.2⟩

theorem findPrevMsg_nearest {s : Store} {t : JsDate} {prev : DbMessage}
    (h : findPrevMsg s t = some prev) :
    ∀ m1 ∈ s.messages, m1.senderId.isSome = true →
      jsdLt m1.timestamp t = true →
      jsdLt prev.timestamp m1.timestamp = false := by
  rw [findPrevMsg] at h
  intro m1 hm1 h1 h2
  exact pickMaxTs_not_lt h m1 (List.mem_filter.mpr ⟨hm1, by simp [h1, h2]⟩)

theorem backfill_fold (s : Store)
    (hwf : ∀ m ∈ s.messages, ∀ sid, m.senderId = some sid →
      ∃ c ∈ s.contacts, c.id = sid) :
    ∀ (todo : List DbMessage) (A : List (Nat × Nat)) (f k : Nat),
    (∀ m ∈ todo, lookupAssign A m.id = none) →
    ((todo.map (fun m => m.id)).Nodup) →
    todo.foldl backfillStep (applyAssigns A s, f, k) =
      (applyAssigns (A ++ assignsOf s todo) s,
       f + todo.countP (fun m => (findPrevMsg s m.timestamp).isSome),
       k + todo.countP (fun m => (findPrevMsg s m.timestamp).isNone)) := by
  intro todo
  induction todo with
  | nil =>
    intro A f k _ _
    simp [assignsOf]
  | cons m rest ih =>
    intro A f k hfresh hnd
    rw [List.foldl_cons]
    rw [List.map_cons] at hnd
    have hndrest : (rest.map (fun m' => m'.id)).Nodup := hnd.of_cons
    have hnotin : m.id ∉ rest.map (fun m' => m'.id) := (List.nodup_cons.mp hnd).1
    cases hp : findPrevMsg s m.timestamp with
    | none =>
      have hps : prevSid s m.timestamp = none := by simp [prevSid, hp]
      have hstep : backfillStep (applyAssigns A s, f, k) m =
          (applyAssigns A s, f, k + 1) := by
        unfold backfillStep
        rw [findPrevMsg_applyAssigns A s m.timestamp, hp]
        rfl
      rw [hstep]
      rw [ih A f (k + 1)
        (fun m' hm' => hfresh m' (List.mem_cons_of_mem m hm')) hndrest]
      have hlist : assignsOf s (m :: rest) = assignsOf s rest := by
        simp [assignsOf, List.filterMap_cons, hps]
      rw [hlist]
      have hc1 : (m :: rest).countP
          (fun m' => (findPrevMsg s m'.timestamp).isSome) =
          rest.countP (fun m' => (findPrevMsg s m'.timestamp).isSome) := by
        simp [List.countP_cons, hp]
      have hc2 : (m :: rest).countP
          (fun m' => (findPrevMsg s m'.timestamp).isNone) =
          rest.countP (fun m' => (findPrevMsg s m'.timestamp).isNone) + 1 := by
        simp [List.countP_cons, hp]
      rw [hc1, hc2]
      simp only [Prod.mk.injEq, true_and, and_true]
      all_goals omega
    | some prev =>
      obtain ⟨hmem, hsid, hlt⟩ := findPrevMsg_spec hp
      obtain ⟨sid, hsideq⟩ := Option.isSome_iff_exists.mp hsid
      obtain ⟨c, hc, hcid⟩ := hwf prev hmem sid hsideq
      have hfindsome : (s.contacts.find? (fun c' => c'.id = sid)).isSome := by
        rw [List.find?_isSome]
        refine ⟨c, hc, ?_⟩
        simp [hcid]
      obtain ⟨sender, hfound⟩ := Option.isSome_iff_exists.mp hfindsome
      have hsender_id : sender.id = sid := by
        have h2 := List.find?_some hfound
        simpa using h2
      have hps : prevSid s m.timestamp = some sid := by
        simp [prevSid, hp, hsideq]
      have hstep : backfillStep (applyAssigns A s, f, k) m =
          (applyAssigns (A ++ [(m.id, sid)]) s, f + 1, k) := by
        unfold backfillStep
        rw [findPrevMsg_applyAssigns A s m.timestamp, hp]
        simp only [Option.map_some', Option.some_bind]
        rw [assignFn_senderId, hsideq]
        simp only [Option.some_bind]
        rw [show (applyAssigns A s).contacts = s.contacts from rfl, hfound]
        show (updateReceiverById (applyAssigns A s) m.id sender.id, f + 1, k) = _
        rw [hsender_id,
          updateReceiver_applyAssigns s A m.id sid
            (hfresh m (List.mem_cons_self m rest))]
      rw [hstep]
      have hfresh' : ∀ m' ∈ rest,
          lookupAssign (A ++ [(m.id, sid)]) m'.id = none := by
        intro m' hm'
        rw [lookupAssign_append, hfresh m' (List.mem_cons_of_mem m hm')]
        have hne : m.id ≠ m'.id := by
          intro he
          apply hnotin
          rw [he]
          exact List.mem_map_of_mem (fun x => x.id) hm'
        simp [lookupAssign, hne]
      rw [ih (A ++ [(m.id, sid)]) (f + 1) k hfresh' hndrest]
      have hlist : (A ++ [(m.id, sid)]) ++ assignsOf s rest =
          A ++ assignsOf s (m :: rest) := by
        simp [assignsOf, List.filterMap_cons, hps, List.append_assoc]
      rw [hlist]
      have hc1 : (m :: rest).countP
          (fun m' => (findPrevMsg s m'.timestamp).isSome) =
          rest.countP (fun m' => (findPrevMsg s m'.timestamp).isSome) + 1 := by
        simp [List.countP_cons, hp]
      have hc2 : (m :: rest).countP
          (fun m' => (findPrevMsg s m'.timestamp).isNone) =
          rest.countP (fun m' => (findPrevMsg s m'.timestamp).isNone) := by
        simp [List.countP_cons, hp]
      rw [hc1, hc2]
      simp only [Prod.mk.injEq, true_and, and_true]
      all_goals omega

theorem find?_map_id_pres (f : DbMessage → DbMessage)
    (hid : ∀ m, (f m).id = m.id) (l : List DbMessage) (k : Nat) :
    (l.map f).find? (fun m => m.id = k) = (l.find? (fun m => m.id = k)).map f := by
  induction l with
  | nil => rfl
  | cons a t ih =>
    rw [List.map_cons]
    by_cases h : a.id = k
    · rw [List.find?_cons_of_pos _ (by simp [hid, h]),
        List.find?_cons_of_pos _ (by simp [h])]
      rfl
    · rw [List.find?_cons_of_neg _ (by simp [hid, h]),
        List.find?_cons_of_neg _ (by simp [h])]
      exact ih

theorem find?_id_self (l : List DbMessage) :
    ∀ (m0 : DbMessage), ((l.map (fun m => m.id)).Nodup) → m0 ∈ l →
    l.find? (fun m => m.id = m0.id) = some m0 := by
  induction l with
  | nil => intro m0 _ hm; exact absurd hm (List.not_mem_nil m0)
  | cons a t ih =>
    intro m0 hnd hm
    rw [List.map_cons] at hnd
    by_cases h : a.id = m0.id
    · rcases List.mem_cons.mp hm with he | ht
      · rw [List.find?_cons_of_pos _ (by simp [h]), he]
      · exfalso
        apply (List.nodup_cons.mp hnd).1
        rw [h]
        exact List.mem_map_of_mem (fun m => m.id) ht
    · rcases List.mem_cons.mp hm with he | ht
      · exact absurd (congrArg (fun m => m.id) he).symm h
      · rw [List.find?_cons_of_neg _ (by simp [h])]
        exact ih m0 hnd.of_cons ht

theorem lookupAssign_assignsOf_not_mem (s : Store) :
    ∀ (targets : List DbMessage) (k : Nat), (∀ m ∈ targets, m.id ≠ k) →
    lookupAssign (assignsOf s targets) k = none := by
  intro targets
  induction targets with
  | nil => intro k _; rfl
  | cons a t ih =>
    intro k hne
    cases hps : prevSid s a.timestamp with
    | none =>
      rw [show assignsOf s (a :: t) = assignsOf s t from by
        simp [assignsOf, List.filterMap_cons, hps]]
      exact ih k (fun m hm => hne m (List.mem_cons_of_mem a hm))
    | some sid =>
      rw [show assignsOf s (a :: t) = (a.id, sid) :: assignsOf s t from by
        simp [assignsOf, List.filterMap_cons, hps]]
      simp only [lookupAssign]
      rw [if_neg (hne a (List.mem_cons_self a t))]
      exact ih k (fun m hm => hne m (List.mem_cons_of_mem a hm))

theorem lookupAssign_assignsOf (s : Store) :
    ∀ (targets : List DbMessage), ((targets.map (fun m => m.id)).Nodup) →
    ∀ m0 ∈ targets,
    lookupAssign (assignsOf s targets) m0.id = prevSid s m0.timestamp := by
  intro targets
  induction targets with
  | nil => intro _ m0 hm0; exact absurd hm0 (List.not_mem_nil m0)
  | cons a t ih =>
    intro hnd m0 hm0
    rw [List.map_cons] at hnd
    rcases List.mem_cons.mp hm0 with he | ht
    · cases hps : prevSid s a.timestamp with
      | some sid =>
        rw [show assignsOf s (a :: t) = (a.id, sid) :: assignsOf s t from by
          simp [assignsOf, List.filterMap_cons, hps]]
        simp only [lookupAssign]
        rw [if_pos (by rw [he])]
        rw [he, hps]
      | none =>
        rw [show assignsOf s (a :: t) = assignsOf s t from by
          simp [assignsOf, List.filterMap_cons, hps]]
        have hmemids : ∀ m ∈ t, m.id ≠ a.id := by
          intro m hm he2
          apply (List.nodup_cons.mp hnd).1
          rw [← he2]
          exact List.mem_map_of_mem (fun m' => m'.id) hm
        rw [he]
        rw [lookupAssign_assignsOf_not_mem s t a.id hmemids]
        rw [hps]
    · have hne : a.id ≠ m0.id := by
        intro he2
        apply (List.nodup_cons.mp hnd).1
        rw [he2]
        exact List.mem_map_of_mem (fun m' => m'.id) ht
      cases hps : prevSid s a.timestamp with
      | some sid =>
        rw [show assignsOf s (a :: t) = (a.id, sid) :: assignsOf s t from by
          simp [assignsOf, List.filterMap_cons, hps]]
        simp only [lookupAssign]
        rw [if_neg hne]
        exact ih hnd.of_cons m0 ht
      | none =>
        rw [show assignsOf s (a :: t) = assignsOf s t from by
          simp [assignsOf, List.filterMap_cons, hps]]
        exact ih hnd.of_cons m0 ht

/-- C6: the Receiver Backfill pass, for every TO message with a null
receiver (taken in ascending timestamp order), sets that message's
receiverId to the senderId of a nearest strictly-earlier message (by
timestamp, across all contacts, ties broken by table order) having a
non-null senderId, leaves it untouched when no such earlier message
exists, and reports exactly the number of such unfixable messages as
skipped (without failing).  Hypotheses: sender references resolve (the
include of the Prisma query) and message ids are unique (the primary
key). -/
theorem fixToMessages_correct (s : Store)
    (hwf : ∀ m ∈ s.messages, ∀ sid, m.senderId = some sid →
      ∃ c ∈ s.contacts, c.id = sid)
    (huniq : (s.messages.map (fun m => m.id)).Nodup) :
    (∀ m0 ∈ s.messages, m0.direction = Direction.TO → m0.receiverId = none →
      (∀ prev, findPrevMsg s m0.timestamp = some prev →
        prev ∈ s.messages ∧ prev.senderId.isSome = true ∧
        jsdLt prev.timestamp m0.timestamp = true ∧
        (∀ m1 ∈ s.messages, m1.senderId.isSome = true →
          jsdLt m1.timestamp m0.timestamp = true →
          jsdLt prev.timestamp m1.timestamp = false) ∧
        (fixToMessagesWithoutReceiver s).1.messages.find?
            (fun m => m.id = m0.id) =
          some { m0 with receiverId := prev.senderId }) ∧
      (findPrevMsg s m0.timestamp = none →
        (fixToMessagesWithoutReceiver s).1.messages.find?
            (fun m => m.id = m0.id) = some m0)) ∧
    (fixToMessagesWithoutReceiver s).2.2 =
      (s.messages.filter isBackfillTarget).countP
        (fun m => (findPrevMsg s m.timestamp).isNone) := by
  have hperm : (backfillTargets s).Perm (s.messages.filter isBackfillTarget) :=
    sortByTs_perm _
  have htnd : ((backfillTargets s).map (fun m => m.id)).Nodup := by
    have h1 : (s.messages.filter isBackfillTarget).Sublist s.messages :=
      List.filter_sublist _
    have h2 := h1.map (fun m => m.id)
    have h3 := List.Nodup.sublist h2 huniq
    exact ((hperm.map (fun m => m.id)).nodup_iff).mpr h3
  have hfold := backfill_fold s hwf (backfillTargets s) [] 0 0
    (fun m _ => rfl) htnd
  rw [applyAssigns_nil] at hfold
  simp only [List.nil_append, Nat.zero_add] at hfold
  have hfix : fixToMessagesWithoutReceiver s =
      (applyAssigns (assignsOf s (backfillTargets s)) s,
       (backfillTargets s).countP (fun m => (findPrevMsg s m.timestamp).isSome),
       (backfillTargets s).countP
         (fun m => (findPrevMsg s m.timestamp).isNone)) := by
    unfold fixToMessagesWithoutReceiver
    exact hfold
  constructor
  · intro m0 hm0 hdir hrecv
    have hm0f : m0 ∈ s.messages.filter isBackfillTarget :=
      List.mem_filter.mpr ⟨hm0, by simp [isBackfillTarget, hdir, hrecv]⟩
    have hm0t : m0 ∈ backfillTargets s := hperm.mem_iff.mpr hm0f
    have hfind : (fixToMessagesWithoutReceiver s).1.messages.find?
        (fun m => m.id = m0.id) =
        some (assignFn (assignsOf s (backfillTargets s)) m0) := by
      rw [hfix]
      rw [show (applyAssigns (assignsOf s (backfillTargets s)) s, _, _).1.messages =
          s.messages.map (assignFn (assignsOf s (backfillTargets s))) from rfl]
      rw [find?_map_id_pres (assignFn (assignsOf s (backfillTargets s)))
        (assignFn_id (assignsOf s (backfillTargets s))) s.messages m0.id]
      rw [find?_id_self s.messages m0 huniq hm0]
      rfl
    have hlook := lookupAssign_assignsOf s (backfillTargets s) htnd m0 hm0t
    constructor
    · intro prev hp
      obtain ⟨hmem, hsid, hlt⟩ := findPrevMsg_spec hp
      refine ⟨hmem, hsid, hlt, findPrevMsg_nearest hp, ?_⟩
      obtain ⟨sid, hsideq⟩ := Option.isSome_iff_exists.mp hsid
      have hps : prevSid s m0.timestamp = some sid := by
        simp [prevSid, hp, hsideq]
      rw [hps] at hlook
      rw [hfind, Option.some.injEq]
      simp [assignFn, hlook, hsideq]
    · intro hp
      have hps : prevSid s m0.timestamp = none := by simp [prevSid, hp]
      rw [hps] at hlook
      rw [hfind, Option.some.injEq]
      simp [assignFn, hlook]
  · rw [hfix]
    exact List.Perm.countP_eq _ hperm

/-- Witness for C6 at a concrete store: message 2 (TO, later than the
FROM message 1) gets receiver 1, message 3 (TO, earliest) is skipped. -/
theorem fixToMessages_correct_witness :
    (∀ m0 ∈ bfStore.messages, m0.direction = Direction.TO →
      m0.receiverId = none →
      (∀ prev, findPrevMsg bfStore m0.timestamp = some prev →
        prev ∈ bfStore.messages ∧ prev.senderId.isSome = true ∧
        jsdLt prev.timestamp m0.timestamp = true ∧
        (∀ m1 ∈ bfStore.messages, m1.senderId.isSome = true →
          jsdLt m1.timestamp m0.timestamp = true →
          jsdLt prev.timestamp m1.timestamp = false) ∧
        (fixToMessagesWithoutReceiver bfStore).1.messages.find?
            (fun m => m.id = m0.id) =
          some { m0 with receiverId := prev.senderId }) ∧
      (findPrevMsg bfStore m0.timestamp = none →
        (fixToMessagesWithoutReceiver bfStore).1.messages.find?
            (fun m => m.id = m0.id) = some m0)) ∧
    (fixToMessagesWithoutReceiver bfStore).2.2 =
      (bfStore.messages.filter isBackfillTarget).countP
        (fun m => (findPrevMsg bfStore m.timestamp).isNone) :=
  fixToMessages_correct bfStore
    (by
      intro m hm sid hsid
      have hm' : m ∈ [bfMsg1, bfMsg2, bfMsg3] := hm
      fin_cases hm'
      · simp only [bfMsg1] at hsid
        rw [Option.some.injEq] at hsid
        exact ⟨bfContact, List.mem_cons_self _ _, hsid⟩
      · simp [bfMsg2] at hsid
      · simp [bfMsg3] at hsid)
    (by decide)

end XFiles
